import Mathlib

/-!
Shallow embedding of the harvesting-and-reconciliation core of the
Rabiayilmaz6/scraper-project repository, and proofs about it.

Sources embedded:
- `src/improved_scrapers.py` (`ImprovedDyrtApiClient`, `ImprovedDyrtScraper`)
- `src/src/scraper/data_processor.py` (`CampgroundProcessor`)
- `src/src/scraper/geocoding.py` (`get_address`, `get_address_with_fallback`)
- `src/src/scraper/api_client.py` (`DyrtApiClient._map_api_response_to_model`,
  `DyrtApiClient.parse_and_validate_campgrounds`; these two methods are
  textually identical to the methods of the same name on
  `ImprovedDyrtApiClient` in `improved_scrapers.py`)
- `src/src/db/models.py` (`CampgroundDB`)

Conventions of the embedding:
- Python floats are modelled as rationals (`ℚ`); timestamps as `Nat` ticks of
  an abstract strictly-monotone clock.
- Network I/O (`requests` calls) is modelled by oracle parameters: a call
  that can raise is an `Except Unit` value supplied by the oracle.  The
  retry/backoff loop of `_make_request` terminates either with the decoded
  response or by re-raising after the last attempt, so its observable result
  at the call site is exactly such an `Except` value; the oracle stands for
  that result.
- The SQLAlchemy session is modelled explicitly: `execute` stages a pending
  upsert, `commit` applies all pending upserts to the committed store,
  `rollback` discards the pending ones.
- `datetime.now()` is passed in as a clock parameter.
-/

namespace Scraper

/-- JSON-like values as delivered by the remote API (decoded Python payloads). -/
inductive JVal where
  | str (s : String)
  | num (q : ℚ)
  | boolean (b : Bool)
  | null
  | arr (xs : List JVal)
deriving Repr

/-- A raw campground payload: a decoded JSON object (Python `dict`). -/
def Raw : Type := List (String × JVal)

/-- Python `data.get(key, default)`: the stored value when the key is present
(including an explicit JSON `null`), otherwise the default. -/
def rawGet (d : Raw) (k : String) (dflt : JVal) : JVal :=
  match d.find? (fun p => p.1 = k) with
  | some p => p.2
  | none => dflt

/-- Digit string to number, `none` unless nonempty and all decimal digits. -/
def digitsVal (cs : List Char) : Option Nat :=
  if cs ≠ [] ∧ cs.all Char.isDigit then
    some (cs.foldl (fun acc c => 10 * acc + (c.toNat - 48)) 0)
  else none

/-- Model of Python `float(s)` on a decimal string literal: optional sign,
integer digits and/or fractional digits (at least one digit in total),
e.g. `"40.5"`, `"-3"`, `"7."`, `".25"`.  Returns `none` when malformed. -/
def parseFloatString (s : String) : Option ℚ :=
  let (neg, body) :=
    match s.data with
    | '-' :: r => (true, r)
    | '+' :: r => (false, r)
    | r => (false, r)
  let mk (q : ℚ) : Option ℚ := some (if neg then -q else q)
  match body.splitOn '.' with
  | [ip] => (digitsVal ip).bind fun n => mk n
  | [ip, fp] =>
    if ip = [] ∧ fp = [] then none
    else if (ip = [] ∨ (digitsVal ip).isSome) ∧ (fp = [] ∨ (digitsVal fp).isSome) then
      mk (((digitsVal ip).getD 0 : ℚ) + ((digitsVal fp).getD 0 : ℚ) / (10 : ℚ) ^ fp.length)
    else none
  | _ => none

/-- Model of Python `float(x)` on a JSON value: numbers pass through,
booleans coerce to 0/1, numeric strings parse, anything else
(`None`, lists) raises `TypeError`/`ValueError`. -/
def pyFloat : JVal → Except Unit ℚ
  | .num q => .ok q
  | .boolean b => .ok (if b then 1 else 0)
  | .str s =>
    match parseFloatString s with
    | some q => .ok q
    | none => .error ()
  | _ => .error ()

/-- The dictionary built by `_map_api_response_to_model`
(`improved_scrapers.py` lines 211-246 and identically
`api_client.py` lines 183-218): every model key is present, `latitude` and
`longitude` already coerced through `float(...)`, the rest still raw. -/
structure MappedData where
  id : JVal
  type : JVal
  links_self : JVal
  name : JVal
  latitude : ℚ
  longitude : ℚ
  region_name : JVal
  administrative_area : JVal
  nearest_city_name : JVal
  accommodation_type_names : JVal
  bookable : JVal
  camper_types : JVal
  operator : JVal
  photo_url : JVal
  photo_urls : JVal
  photos_count : JVal
  rating : JVal
  reviews_count : JVal
  slug : JVal
  price_low : JVal
  price_high : JVal
  availability_updated_at : JVal

/-- `_map_api_response_to_model(data)`: field-name translation with the
source's defaults; `float(data.get("latitude", 0.0))` (and longitude) can
raise, which the caller's `except` catches — modelled as `Except`. -/
def map_api_response_to_model (data : Raw) : Except Unit MappedData := do
  let lat ← pyFloat (rawGet data "latitude" (.num 0))
  let lon ← pyFloat (rawGet data "longitude" (.num 0))
  return {
    id := rawGet data "id" (.str "")
    type := rawGet data "type" (.str "campground")
    links_self := rawGet data "url" (.str "https://thedyrt.com")
    name := rawGet data "name" (.str "")
    latitude := lat
    longitude := lon
    region_name := rawGet data "state" (.str "Unknown")
    administrative_area := rawGet data "administrative_area" .null
    nearest_city_name := rawGet data "nearest_city" .null
    accommodation_type_names := rawGet data "accommodation_types" (.arr [])
    bookable := rawGet data "bookable" (.boolean false)
    camper_types := rawGet data "camper_types" (.arr [])
    operator := rawGet data "operator" .null
    photo_url := rawGet data "primary_photo_url" .null
    photo_urls := rawGet data "photo_urls" (.arr [])
    photos_count := rawGet data "photos_count" (.num 0)
    rating := rawGet data "rating" .null
    reviews_count := rawGet data "reviews_count" (.num 0)
    slug := rawGet data "slug" .null
    price_low := rawGet data "price_low" .null
    price_high := rawGet data "price_high" .null
    availability_updated_at := rawGet data "availability_updated_at" .null
  }

/-- The validated campground record (the pydantic `Campground` model of
`src/models/campground.py`, which is not part of the sources; its field list
and types follow §3 of the spec). -/
structure Campground where
  id : String
  type : String
  links_self : String
  name : String
  latitude : ℚ
  longitude : ℚ
  region_name : String
  administrative_area : Option String
  nearest_city_name : Option String
  accommodation_type_names : List String
  bookable : Bool
  camper_types : List String
  operator : Option String
  photo_url : Option String
  photo_urls : List String
  photos_count : Nat
  rating : Option ℚ
  reviews_count : Nat
  slug : Option String
  price_low : Option ℚ
  price_high : Option ℚ
  availability_updated_at : Option Nat
  address : Option String
deriving Repr, DecidableEq

/-- Lenient extraction of a string with a default (non-critical fields). -/
def asStrD (dflt : String) : JVal → String
  | .str s => s
  | _ => dflt

/-- Lenient extraction of an optional string. -/
def asOptStr : JVal → Option String
  | .str s => some s
  | _ => none

/-- Lenient extraction of a list of strings. -/
def asStrList : JVal → List String
  | .arr xs => xs.filterMap asOptStr
  | _ => []

/-- Lenient extraction of a boolean, defaulting to `false`. -/
def asBoolD : JVal → Bool
  | .boolean b => b
  | _ => false

/-- Lenient extraction of a non-negative integer, defaulting to `0`. -/
def asNatD : JVal → Nat
  | .num q => if q.den = 1 then q.num.toNat else 0
  | _ => 0

/-- Lenient extraction of an optional rational. -/
def asOptRat : JVal → Option ℚ
  | .num q => some q
  | _ => none

/-- Lenient extraction of an optional timestamp. -/
def asOptNat : JVal → Option Nat
  | .num q => if q.den = 1 ∧ 0 ≤ q.num then some q.num.toNat else none
  | _ => none

/-- Modelled from the spec: the pydantic `Campground` constructor of
`src/models/campground.py`, which is not under `src/`.  Per §3 of the spec,
construction fails (ValidationError) exactly when `id`, `name`, `latitude`
or `longitude` are structurally missing or malformed after field mapping;
the mapping has already supplied every key and coerced the coordinates, so
what remains to reject is a non-string `id` or `name`.  All other fields
take their values leniently, with the spec's defaults. -/
def Campground.ofMapped (m : MappedData) : Except Unit Campground :=
  match m.id, m.name with
  | .str i, .str n =>
    .ok {
      id := i
      type := asStrD "campground" m.type
      links_self := asStrD "https://thedyrt.com" m.links_self
      name := n
      latitude := m.latitude
      longitude := m.longitude
      region_name := asStrD "Unknown" m.region_name
      administrative_area := asOptStr m.administrative_area
      nearest_city_name := asOptStr m.nearest_city_name
      accommodation_type_names := asStrList m.accommodation_type_names
      bookable := asBoolD m.bookable
      camper_types := asStrList m.camper_types
      operator := asOptStr m.operator
      photo_url := asOptStr m.photo_url
      photo_urls := asStrList m.photo_urls
      photos_count := asNatD m.photos_count
      rating := asOptRat m.rating
      reviews_count := asNatD m.reviews_count
      slug := asOptStr m.slug
      price_low := asOptRat m.price_low
      price_high := asOptRat m.price_high
      availability_updated_at := asOptNat m.availability_updated_at
      address := none
    }
  | _, _ => .error ()

/-- Mapping followed by validation for a single raw payload: `none` when the
record is dropped (`except ... continue`), `some` when it validates. -/
def validateOne (d : Raw) : Option Campground :=
  ((map_api_response_to_model d).bind Campground.ofMapped).toOption

/-- `parse_and_validate_campgrounds(campground_data)`
(`improved_scrapers.py` lines 182-209, identically `api_client.py`
lines 154-181): validate each record, skipping the ones whose mapping or
construction raises, keeping the rest in order. -/
def parse_and_validate_campgrounds : List Raw → List Campground
  | [] => []
  | d :: rest =>
    match (map_api_response_to_model d).bind Campground.ofMapped with
    | .ok c => c :: parse_and_validate_campgrounds rest
    | .error _ => parse_and_validate_campgrounds rest

/-! ## Geocoding (`src/src/scraper/geocoding.py`) -/

/-- Round to the nearest integer, ties to even — the rounding of Python's
`"%.6f"`-style formatting. -/
def roundHalfEven (q : ℚ) : ℤ :=
  let f := ⌊q⌋
  let r := q - (f : ℚ)
  if r < 1/2 then f
  else if 1/2 < r then f + 1
  else if f % 2 = 0 then f else f + 1

/-- Format a coordinate with exactly six decimal digits, as Python's
`f"{x:.6f}"` does (sign kept even when the magnitude rounds to zero). -/
def fmtFixed6 (q : ℚ) : String :=
  let n := roundHalfEven (q * 1000000)
  let sign := if q < 0 then "-" else ""
  let m := n.natAbs
  let fs := toString (m % 1000000)
  sign ++ toString (m / 1000000) ++ "." ++
    String.mk (List.replicate (6 - fs.length) '0') ++ fs

/-- The placeholder synthesized by the fallback branch of
`get_address_with_fallback` (`geocoding.py` line 191). -/
def placeholderAddress (lat lon : ℚ) : String :=
  "Location at coordinates: " ++ fmtFixed6 lat ++ ", " ++ fmtFixed6 lon

/-- `get_address(latitude, longitude)` (`geocoding.py` lines 152-173): the
primary Nominatim lookup.  The retry/backoff loop of
`get_address_from_coordinates` ends in one of three observable ways, which
the `lookup` oracle delivers: `.ok (some a)` — a `display_name` was found;
`.ok none` — no `display_name`, or retries exhausted on request failures;
`.error ()` — a non-request exception escaped. -/
def get_address (lookup : ℚ → ℚ → Except Unit (Option String))
    (lat lon : ℚ) : Except Unit (Option String) :=
  lookup lat lon

/-- `get_address_with_fallback(latitude, longitude)` (`geocoding.py` lines
175-196): try the primary lookup, returning its address when truthy;
otherwise (falsy result or exception) synthesize the placeholder — but only
when both coordinates are Python-truthy (nonzero); else `None`. -/
def get_address_with_fallback (lookup : ℚ → ℚ → Except Unit (Option String))
    (lat lon : ℚ) : Option String :=
  let fallback : Option String :=
    if lat ≠ 0 ∧ lon ≠ 0 then some (placeholderAddress lat lon) else none
  match get_address lookup lat lon with
  | .ok (some a) => if a = "" then fallback else some a
  | .ok none => fallback
  | .error _ => fallback

/-! ## Reconciler (`src/src/scraper/data_processor.py`, `src/src/db/models.py`) -/

/-- Python truthiness of an optional string (`None` and `""` are falsy). -/
def truthyOptStr : Option String → Bool
  | some s => !(s = "")
  | none => false

/-- The address block of `_convert_to_db_model` (`data_processor.py` lines
64-76): keep a truthy carried address; else, when both coordinates are
Python-truthy, call `get_address`, catching any exception as "no address";
else leave the address `None`. -/
def convert_address (geo : ℚ → ℚ → Except Unit (Option String))
    (c : Campground) : Option String :=
  if truthyOptStr c.address then c.address
  else if c.latitude ≠ 0 ∧ c.longitude ≠ 0 then
    match get_address geo c.latitude c.longitude with
    | .ok a => a
    | .error _ => none
  else none

/-- The values attached to one upsert statement in `store_campgrounds`
(`data_processor.py` lines 127-181): every `CampgroundDB` column except
`created_at`, which the INSERT leaves to the server default and the UPDATE
does not touch. -/
structure UpsertValues where
  id : String
  type : String
  links_self : String
  name : String
  latitude : ℚ
  longitude : ℚ
  region_name : String
  administrative_area : Option String
  nearest_city_name : Option String
  accommodation_type_names : List String
  bookable : Bool
  camper_types : List String
  operator : Option String
  photo_url : Option String
  photo_urls : List String
  photos_count : Nat
  rating : Option ℚ
  reviews_count : Nat
  slug : Option String
  price_low : Option ℚ
  price_high : Option ℚ
  availability_updated_at : Option Nat
  address : Option String
  updated_at : Nat
deriving Repr, DecidableEq

/-- A persisted row of the `campgrounds` table (`src/src/db/models.py`,
`CampgroundDB`): the upsert values plus `created_at`. -/
structure CampgroundDB where
  id : String
  type : String
  links_self : String
  name : String
  latitude : ℚ
  longitude : ℚ
  region_name : String
  administrative_area : Option String
  nearest_city_name : Option String
  accommodation_type_names : List String
  bookable : Bool
  camper_types : List String
  operator : Option String
  photo_url : Option String
  photo_urls : List String
  photos_count : Nat
  rating : Option ℚ
  reviews_count : Nat
  slug : Option String
  price_low : Option ℚ
  price_high : Option ℚ
  availability_updated_at : Option Nat
  address : Option String
  created_at : Nat
  updated_at : Nat
deriving Repr, DecidableEq

/-- `_convert_to_db_model(campground)` (`data_processor.py` lines 34-102),
restricted to what the upsert statement actually consumes: the record's
fields, the resolved address, and `updated_at = datetime.now()`.  The
defensive `str(...)` conversions for links and photo URLs cannot fail in a
typed embedding and are identities here. -/
def convert_to_db_model (geo : ℚ → ℚ → Except Unit (Option String))
    (now : Nat) (c : Campground) : UpsertValues :=
  { id := c.id
    type := c.type
    links_self := c.links_self
    name := c.name
    latitude := c.latitude
    longitude := c.longitude
    region_name := c.region_name
    administrative_area := c.administrative_area
    nearest_city_name := c.nearest_city_name
    accommodation_type_names := c.accommodation_type_names
    bookable := c.bookable
    camper_types := c.camper_types
    operator := c.operator
    photo_url := c.photo_url
    photo_urls := c.photo_urls
    photos_count := c.photos_count
    rating := c.rating
    reviews_count := c.reviews_count
    slug := c.slug
    price_low := c.price_low
    price_high := c.price_high
    availability_updated_at := c.availability_updated_at
    address := convert_address geo c
    updated_at := now }

/-- Materialize upsert values as a row with the given `created_at`. -/
def applyRow (v : UpsertValues) (created : Nat) : CampgroundDB :=
  { id := v.id
    type := v.type
    links_self := v.links_self
    name := v.name
    latitude := v.latitude
    longitude := v.longitude
    region_name := v.region_name
    administrative_area := v.administrative_area
    nearest_city_name := v.nearest_city_name
    accommodation_type_names := v.accommodation_type_names
    bookable := v.bookable
    camper_types := v.camper_types
    operator := v.operator
    photo_url := v.photo_url
    photo_urls := v.photo_urls
    photos_count := v.photos_count
    rating := v.rating
    reviews_count := v.reviews_count
    slug := v.slug
    price_low := v.price_low
    price_high := v.price_high
    availability_updated_at := v.availability_updated_at
    address := v.address
    created_at := created
    updated_at := v.updated_at }

/-- Semantics of one staged statement
`INSERT ... ON CONFLICT (id) DO UPDATE SET …` (`data_processor.py` lines
127-182): if a row with the same `id` exists it is fully overwritten (all
columns except `created_at`); otherwise a new row is inserted with
`created_at` set by the server default clock, i.e. the same tick as
`updated_at`. -/
def upsertRow (v : UpsertValues) (db : List CampgroundDB) : List CampgroundDB :=
  if db.any (fun r => r.id = v.id) then
    db.map (fun r => if r.id = v.id then applyRow v r.created_at else r)
  else db ++ [applyRow v v.updated_at]

/-- A SQLAlchemy session: a committed store plus the statements staged by
`execute` since the last commit/rollback. -/
structure DbSession where
  committed : List CampgroundDB
  pending : List UpsertValues
deriving Repr, DecidableEq

/-- `session.execute(stmt)`: stage one upsert in the open transaction. -/
def DbSession.execute (s : DbSession) (v : UpsertValues) : DbSession :=
  { s with pending := s.pending ++ [v] }

/-- `session.commit()`: apply every staged upsert, in order, atomically. -/
def DbSession.commit (s : DbSession) : DbSession :=
  ⟨s.pending.foldl (fun db v => upsertRow v db) s.committed, []⟩

/-- `session.rollback()`: discard every staged upsert. -/
def DbSession.rollback (s : DbSession) : DbSession :=
  { s with pending := [] }

/-- The record loop of `store_campgrounds` (`data_processor.py` lines
119-194): convert and `execute` each record, counting them; `commit` once
after the loop.  `failAt k` says whether the database raises on the `k`-th
`execute` — on which the `except` branch rolls back and re-raises. -/
def store_loop (geo : ℚ → ℚ → Except Unit (Option String)) (now : Nat)
    (failAt : Nat → Bool) :
    List Campground → Nat → DbSession → Except Unit Nat × DbSession
  | [], count, s => (.ok count, s.commit)
  | c :: rest, count, s =>
    if failAt count then (.error (), s.rollback)
    else store_loop geo now failAt rest (count + 1)
      (s.execute (convert_to_db_model geo now c))

/-- `store_campgrounds(campgrounds)` (`data_processor.py` lines 104-194):
empty batches return 0 without touching the session; otherwise run the
record loop with one commit at its end, rollback-and-raise on any error. -/
def store_campgrounds (geo : ℚ → ℚ → Except Unit (Option String)) (now : Nat)
    (failAt : Nat → Bool) (cs : List Campground) (s : DbSession) :
    Except Unit Nat × DbSession :=
  if cs.isEmpty then (.ok 0, s)
  else store_loop geo now failAt cs 0 s

/-! ## Region partitioner (`improved_scrapers.py` lines 295-328) -/

/-- A bounding rectangle (`US_BOUNDS`-shaped dict). -/
structure BoundingBox where
  north : ℚ
  south : ℚ
  east : ℚ
  west : ℚ
deriving Repr, DecidableEq

/-- `ImprovedDyrtScraper.US_BOUNDS`. -/
def US_BOUNDS : BoundingBox := ⟨49, 24, -66, -125⟩

/-- One grid cell produced by `_generate_grid_bounds`. -/
structure GridCell where
  cell_id : String
  west : ℚ
  east : ℚ
  south : ℚ
  north : ℚ
deriving Repr, DecidableEq

/-- The cell built for row `i`, column `j` of an `n × n` grid over `b`
(`improved_scrapers.py` lines 302-325). -/
def mkGridCell (b : BoundingBox) (n : Nat) (i j : Nat) : GridCell :=
  let lon_step := (b.east - b.west) / (n : ℚ)
  let lat_step := (b.north - b.south) / (n : ℚ)
  { cell_id := s!"{i}-{j}"
    west := b.west + (j : ℚ) * lon_step
    east := b.west + ((j : ℚ) + 1) * lon_step
    south := b.south + (i : ℚ) * lat_step
    north := b.south + ((i : ℚ) + 1) * lat_step }

/-- `_generate_grid_bounds()` (`improved_scrapers.py` lines 295-328), with
the instance attributes `US_BOUNDS` and `GRID_SIZE` as parameters: nested
loops over rows `i` and columns `j`. -/
def generate_grid_bounds (b : BoundingBox) (grid_size : Nat) : List GridCell :=
  (List.range grid_size).flatMap fun i =>
    (List.range grid_size).map fun j => mkGridCell b grid_size i j

/-! ## Paginated fetch (`improved_scrapers.py` lines 112-180) -/

/-- Observable actions of `search_campgrounds_paginated`: page fetches and
the `time.sleep(0.5)` pacing between pages. -/
inductive PageEvent where
  | fetchPage (page : Nat)
  | sleep
deriving Repr, DecidableEq

/-- The `while page <= max_pages` loop of `search_campgrounds_paginated`,
with `fuel = max_pages - page + 1` remaining iterations.  `respond page`
is the result of `_make_request` followed by envelope extraction (lines
139-161): `.ok (campgrounds, total_pages)` — including `([], 1)` for an
unrecognized envelope — or `.error ()` when the request raised after its
retries, which the `except` catches, logs, and turns into `break`. -/
def search_go (respond : Nat → Except Unit (List Raw × Nat)) (per_page : Nat) :
    Nat → Nat → List Raw × List PageEvent
  | 0, _ => ([], [])
  | fuel + 1, page =>
    match respond page with
    | .error _ => ([], [.fetchPage page])
    | .ok (cs, total_pages) =>
      if cs.length < per_page ∨ total_pages ≤ page then (cs, [.fetchPage page])
      else
        (cs ++ (search_go respond per_page fuel (page + 1)).1,
         .fetchPage page :: .sleep :: (search_go respond per_page fuel (page + 1)).2)

/-- `search_campgrounds_paginated(bounds, max_pages, per_page)`
(`improved_scrapers.py` lines 112-180): accumulate pages from page 1,
returning the collected records and the trace of fetches and pacing sleeps. -/
def search_campgrounds_paginated (respond : Nat → Except Unit (List Raw × Nat))
    (max_pages per_page : Nat) : List Raw × List PageEvent :=
  search_go respond per_page max_pages 1

/-! ## Harvest orchestrator (`improved_scrapers.py` lines 249-414) -/

/-- The on-disk progress checkpoint `scraper_stats.json`
(`{"total_campgrounds": int, "processed_cells": [str]}`). -/
structure ScraperStats where
  total_campgrounds : Nat
  processed_cells : List String
deriving Repr, DecidableEq

/-- `_load_stats()` (`improved_scrapers.py` lines 330-338): the file's
contents, or the fresh default when missing/corrupt (`none`). -/
def load_stats (file : Option ScraperStats) : ScraperStats :=
  file.getD ⟨0, []⟩

/-- `processed_cells.add(cell_id)` on the set of processed cells, modelled
as append-if-absent on the listed ids. -/
def insertCell (done : List String) (c : String) : List String :=
  if done.contains c then done else done ++ [c]

/-- Observable actions of `ImprovedDyrtScraper.run`: fetching a region,
persisting a region's batch, and checkpointing the stats file. -/
inductive RunEvent where
  | fetch (cellId : String)
  | persist (cellId : String) (stored : Nat)
  | save (stats : ScraperStats)
deriving Repr, DecidableEq

/-- The oracles and configuration a run closes over: the network
(per-cell page responses, geocoder), the clock for each cell's batch,
the per-cell/per-record database failure oracle, and the run arguments. -/
structure RunEnv where
  respond : String → Nat → Except Unit (List Raw × Nat)
  geo : ℚ → ℚ → Except Unit (Option String)
  clock : String → Nat
  failAt : String → Nat → Bool
  max_pages : Nat
  per_page : Nat
  resume : Bool

/-- The in-flight state of a run: the running total and processed set, the
database session, the stats file on disk, and the trace so far. -/
structure RunState where
  total : Nat
  processed : List String
  session : DbSession
  file : Option ScraperStats
  events : List RunEvent
deriving Repr

/-- The `for i, bounds in enumerate(grid_bounds)` loop of `run`
(`improved_scrapers.py` lines 366-405): skip resumed cells; fetch all
pages; an empty cell is checkpointed as processed without persisting;
otherwise validate, store, and checkpoint — a persistence error aborts
the run (`except ... raise`, lines 410-412).  Note the saved stats dict
always carries the current running total. -/
def run_loop (env : RunEnv) :
    List GridCell → RunState → Except Unit Unit × RunState
  | [], st => (.ok (), st)
  | cell :: rest, st =>
    if env.resume && st.processed.contains cell.cell_id then
      run_loop env rest st
    else
      let data := (search_campgrounds_paginated (env.respond cell.cell_id)
        env.max_pages env.per_page).1
      let st1 := { st with events := st.events ++ [RunEvent.fetch cell.cell_id] }
      if data.isEmpty then
        let done := insertCell st1.processed cell.cell_id
        let stats : ScraperStats := ⟨st1.total, done⟩
        run_loop env rest { st1 with
          processed := done, file := some stats,
          events := st1.events ++ [RunEvent.save stats] }
      else
        let validated := parse_and_validate_campgrounds data
        let r := store_campgrounds env.geo (env.clock cell.cell_id)
          (env.failAt cell.cell_id) validated st1.session
        match r.1 with
        | .error _ => (.error (), { st1 with session := r.2 })
        | .ok stored =>
          let total := st1.total + stored
          let done := insertCell st1.processed cell.cell_id
          let stats : ScraperStats := ⟨total, done⟩
          run_loop env rest { st1 with
            total := total, processed := done, session := r.2,
            file := some stats,
            events := st1.events ++ [RunEvent.persist cell.cell_id stored, RunEvent.save stats] }

/-- `ImprovedDyrtScraper.run(max_pages_per_cell, per_page, resume)`
(`improved_scrapers.py` lines 347-414): load or reset the stats, walk the
grid, and return the accumulated `total_campgrounds` on success; an
exception inside the loop is logged and re-raised. -/
def run (env : RunEnv) (b : BoundingBox) (grid_size : Nat)
    (file : Option ScraperStats) (db : List CampgroundDB) :
    Except Unit Nat × RunState :=
  let stats := if env.resume then load_stats file else ⟨0, []⟩
  let st0 : RunState :=
    ⟨stats.total_campgrounds, stats.processed_cells, ⟨db, []⟩, file, []⟩
  match run_loop env (generate_grid_bounds b grid_size) st0 with
  | (.ok _, st) => (.ok st.total, st)
  | (.error _, st) => (.error (), st)

/-- The records a cell's paginated fetch delivers. -/
def cellData (env : RunEnv) (cid : String) : List Raw :=
  (search_campgrounds_paginated (env.respond cid) env.max_pages env.per_page).1

/-- The number of records of a cell that validate (the count its
non-failing batch stores). -/
def cellStored (env : RunEnv) (cid : String) : Nat :=
  (parse_and_validate_campgrounds (cellData env cid)).length

/-- A point lies in the closed rectangle of a grid cell. -/
def closedInside (c : GridCell) (lat lon : ℚ) : Prop :=
  c.south ≤ lat ∧ lat ≤ c.north ∧ c.west ≤ lon ∧ lon ≤ c.east

/-- A point lies in the open interior of a grid cell. -/
def openInside (c : GridCell) (lat lon : ℚ) : Prop :=
  c.south < lat ∧ lat < c.north ∧ c.west < lon ∧ lon < c.east

/-- Spec-side recomputation of the run's observable trace (§4.6 of the
spec): for each region not yet in the completed set, in grid order — fetch
its pages; when nonempty, persist the validated batch; then immediately
checkpoint with the region added to the completed set and the total
updated.  Compared against `run_loop` in the refinement lemmas below. -/
def expected_run_events (env : RunEnv) :
    List GridCell → List String → Nat → List RunEvent
  | [], _, _ => []
  | cell :: rest, done, total =>
    if env.resume && done.contains cell.cell_id then
      expected_run_events env rest done total
    else if (cellData env cell.cell_id).isEmpty then
      RunEvent.fetch cell.cell_id
        :: RunEvent.save ⟨total, insertCell done cell.cell_id⟩
        :: expected_run_events env rest (insertCell done cell.cell_id) total
    else
      RunEvent.fetch cell.cell_id
        :: RunEvent.persist cell.cell_id (cellStored env cell.cell_id)
        :: RunEvent.save ⟨total + cellStored env cell.cell_id,
             insertCell done cell.cell_id⟩
        :: expected_run_events env rest (insertCell done cell.cell_id)
             (total + cellStored env cell.cell_id)

/-- The completed set after walking the given cells. -/
def processedAfter (env : RunEnv) : List GridCell → List String → List String
  | [], done => done
  | cell :: rest, done =>
    if env.resume && done.contains cell.cell_id then
      processedAfter env rest done
    else processedAfter env rest (insertCell done cell.cell_id)

/-- The cell ids fetched in a trace, in order. -/
def fetchedCells (evs : List RunEvent) : List String :=
  evs.filterMap fun e =>
    match e with
    | .fetch c => some c
    | _ => none

/-- The total number of records persisted in a trace (this invocation's
stored count). -/
def persistTotal (evs : List RunEvent) : Nat :=
  (evs.filterMap fun e =>
    match e with
    | .persist _ n => some n
    | _ => none).sum

/-- Whether every one of the cells would be skipped by the resume check. -/
def allSkipped (env : RunEnv) (cells : List GridCell)
    (done : List String) : Bool :=
  cells.all fun c => env.resume && done.contains c.cell_id

/-- The initial run state `run` builds from its arguments. -/
def runInit (env : RunEnv) (file : Option ScraperStats)
    (db : List CampgroundDB) : RunState :=
  let stats := if env.resume then load_stats file else ⟨0, []⟩
  ⟨stats.total_campgrounds, stats.processed_cells, ⟨db, []⟩, file, []⟩

/-! ## Validation (C4) -/

/-- A JSON value that is a string. -/
def JVal.isStr (v : JVal) : Prop := ∃ s, v = JVal.str s

/-- "id, name, latitude, or longitude structurally missing or malformed
after field mapping": the mapping itself raises (only possible on the
`float(...)` coercion of latitude/longitude), or the mapped `id`/`name` is
not a string.  The mapping supplies a default for every absent key, so
nothing can be missing after it. -/
def criticalFieldBad (d : Raw) : Prop :=
  match map_api_response_to_model d with
  | .error _ => True
  | .ok m => ¬ m.id.isStr ∨ ¬ m.name.isStr

lemma ofMapped_eq_error_iff (m : MappedData) :
    Campground.ofMapped m = .error () ↔ ¬ m.id.isStr ∨ ¬ m.name.isStr := by
  cases hid : m.id <;> cases hname : m.name <;>
    simp [Campground.ofMapped, JVal.isStr, hid, hname]

lemma validateOne_eq_none_iff (d : Raw) :
    validateOne d = none ↔ criticalFieldBad d := by
  unfold validateOne criticalFieldBad
  cases hm : map_api_response_to_model d with
  | error e => cases e; simp only [hm]; simp [Except.toOption, Except.bind]
  | ok m =>
    simp only [hm,
      show (Except.ok m).bind Campground.ofMapped = Campground.ofMapped m
        from rfl]
    rw [← ofMapped_eq_error_iff]
    cases ho : Campground.ofMapped m with
    | error e => cases e; simp [Except.toOption]
    | ok c => simp [Except.toOption]

lemma validateOne_eq_ok {d : Raw} {c : Campground}
    (hd : (map_api_response_to_model d).bind Campground.ofMapped = .ok c) :
    validateOne d = some c := by
  unfold validateOne; rw [hd]; rfl

lemma validateOne_eq_err {d : Raw} {e : Unit}
    (hd : (map_api_response_to_model d).bind Campground.ofMapped = .error e) :
    validateOne d = none := by
  unfold validateOne; rw [hd]; rfl

lemma parse_eq_filterMap (batch : List Raw) :
    parse_and_validate_campgrounds batch = batch.filterMap validateOne := by
  induction batch with
  | nil => rfl
  | cons d rest ih =>
    rw [List.filterMap_cons]
    cases hd : (map_api_response_to_model d).bind Campground.ofMapped with
    | ok c =>
      have h1 : parse_and_validate_campgrounds (d :: rest)
          = c :: parse_and_validate_campgrounds rest := by
        conv_lhs => unfold parse_and_validate_campgrounds
        rw [hd]
      rw [h1, validateOne_eq_ok hd, ih]
    | error e =>
      have h1 : parse_and_validate_campgrounds (d :: rest)
          = parse_and_validate_campgrounds rest := by
        conv_lhs => unfold parse_and_validate_campgrounds
        rw [hd]
      rw [h1, validateOne_eq_err hd, ih]

/-- C4: for every batch of raw payloads, a record whose `id`, `name`,
`latitude` or `longitude` is structurally missing or malformed after field
mapping is dropped from the validated result, and every other record
validates and is kept, in order, unaffected by the rest of its batch
(validation is per-record: splitting the batch around any record changes
nothing). -/
theorem C4_validation_exclusion :
    (∀ batch : List Raw,
      parse_and_validate_campgrounds batch = batch.filterMap validateOne)
    ∧ (∀ d : Raw, validateOne d = none ↔ criticalFieldBad d)
    ∧ (∀ (pre post : List Raw) (d : Raw),
        parse_and_validate_campgrounds (pre ++ d :: post)
          = parse_and_validate_campgrounds pre
            ++ parse_and_validate_campgrounds [d]
            ++ parse_and_validate_campgrounds post) := by
  refine ⟨parse_eq_filterMap, validateOne_eq_none_iff, ?_⟩
  intro pre post d
  rw [parse_eq_filterMap, parse_eq_filterMap, parse_eq_filterMap,
    parse_eq_filterMap]
  rw [show (d :: post) = [d] ++ post from rfl, List.filterMap_append,
    List.filterMap_append, List.append_assoc]

/-! ## Store / upsert lemmas (C1, C7) -/

lemma convert_id (geo : ℚ → ℚ → Except Unit (Option String)) (now : Nat)
    (c : Campground) : (convert_to_db_model geo now c).id = c.id := rfl

lemma convert_updated_at (geo : ℚ → ℚ → Except Unit (Option String))
    (now : Nat) (c : Campground) :
    (convert_to_db_model geo now c).updated_at = now := rfl

lemma applyRow_id (v : UpsertValues) (t : Nat) : (applyRow v t).id = v.id := rfl

lemma upsertRow_of_not_mem {v : UpsertValues} {db : List CampgroundDB}
    (h : ∀ r ∈ db, r.id ≠ v.id) :
    upsertRow v db = db ++ [applyRow v v.updated_at] := by
  unfold upsertRow
  rw [if_neg]
  simp only [List.any_eq_true, decide_eq_true_eq]
  rintro ⟨r, hr, he⟩
  exact h r hr he

lemma foldl_execute (f : Campground → UpsertValues) :
    ∀ (cs : List Campground) (s : DbSession),
      cs.foldl (fun t c => t.execute (f c)) s
        = ⟨s.committed, s.pending ++ cs.map f⟩ := by
  intro cs
  induction cs with
  | nil => intro s; simp [DbSession.execute]
  | cons c rest ih =>
    intro s
    rw [List.foldl_cons, ih]
    simp [DbSession.execute]

lemma store_loop_noFail (geo : ℚ → ℚ → Except Unit (Option String))
    (now : Nat) (failAt : Nat → Bool) (hf : ∀ k, failAt k = false) :
    ∀ (cs : List Campground) (count : Nat) (s : DbSession),
      store_loop geo now failAt cs count s
        = (.ok (count + cs.length),
           (cs.foldl (fun t c => t.execute (convert_to_db_model geo now c)) s).commit) := by
  intro cs
  induction cs with
  | nil => intro count s; simp [store_loop]
  | cons c rest ih =>
    intro count s
    rw [store_loop, hf count]
    simp only [Bool.false_eq_true, if_false, List.foldl_cons,
      List.length_cons]
    rw [ih]
    have harith : count + 1 + rest.length = count + (rest.length + 1) := by
      omega
    rw [harith]

lemma store_loop_fail (geo : ℚ → ℚ → Except Unit (Option String))
    (now : Nat) (failAt : Nat → Bool) :
    ∀ (cs : List Campground) (count : Nat) (s : DbSession),
      (∃ k, count ≤ k ∧ k < count + cs.length ∧ failAt k = true) →
      (store_loop geo now failAt cs count s).1 = .error ()
      ∧ (store_loop geo now failAt cs count s).2.committed = s.committed
      ∧ (store_loop geo now failAt cs count s).2.pending = [] := by
  intro cs
  induction cs with
  | nil =>
    rintro count s ⟨k, hk1, hk2, _⟩
    simp only [List.length_nil, Nat.add_zero] at hk2
    omega
  | cons c rest ih =>
    rintro count s ⟨k, hk1, hk2, hk3⟩
    by_cases hfc : failAt count = true
    · rw [store_loop, hfc]
      exact ⟨rfl, rfl, rfl⟩
    · rw [store_loop]
      simp only [hfc]
      rw [if_neg (by simp)]
      apply ih
      refine ⟨k, ?_, ?_, hk3⟩
      · rcases Nat.eq_or_lt_of_le hk1 with he | hl
        · exact absurd (he ▸ hk3) hfc
        · omega
      · simp only [List.length_cons] at hk2; omega

lemma store_campgrounds_noFail (geo : ℚ → ℚ → Except Unit (Option String))
    (now : Nat) (failAt : Nat → Bool) (hf : ∀ k, failAt k = false)
    (cs : List Campground) (s : DbSession) (hp : s.pending = []) :
    store_campgrounds geo now failAt cs s
      = (.ok cs.length,
         ⟨cs.foldl (fun db c => upsertRow (convert_to_db_model geo now c) db)
            s.committed, []⟩) := by
  unfold store_campgrounds
  by_cases hcs : cs.isEmpty
  · rw [if_pos hcs]
    rw [List.isEmpty_iff.mp hcs]
    cases s with
    | mk committed pending => simp_all
  · rw [if_neg hcs]
    rw [store_loop_noFail geo now failAt hf cs 0 s]
    rw [foldl_execute]
    unfold DbSession.commit
    simp only [Nat.zero_add, hp, List.nil_append]
    rw [List.foldl_map]

lemma store_campgrounds_fail (geo : ℚ → ℚ → Except Unit (Option String))
    (now : Nat) (failAt : Nat → Bool) (cs : List Campground) (s : DbSession)
    (h : ∃ k < cs.length, failAt k = true) :
    (store_campgrounds geo now failAt cs s).1 = .error ()
    ∧ (store_campgrounds geo now failAt cs s).2.committed = s.committed
    ∧ (store_campgrounds geo now failAt cs s).2.pending = [] := by
  obtain ⟨k, hk, hk3⟩ := h
  have hne : cs.isEmpty = false := by
    cases cs with
    | nil => simp at hk
    | cons a l => rfl
  unfold store_campgrounds
  rw [hne]
  simp only [Bool.false_eq_true, if_false]
  exact store_loop_fail geo now failAt cs 0 s ⟨k, Nat.zero_le k, by omega, hk3⟩

/-- C1: upserting the same `id` twice — starting from a store with no row
for that `id`, with the batch clock strictly advancing between the two
calls — leaves exactly one row for that `id`; that row carries every column
of the data model (including `address`) computed from the second call's
record, `updated_at` is the second call's clock (strictly greater than the
first call's), and `created_at` is still the first insert's clock. -/
theorem C1_upsert_full_replace
    (geo1 geo2 : ℚ → ℚ → Except Unit (Option String)) (t1 t2 : Nat)
    (r1 r2 : Campground) (s : DbSession)
    (hp : s.pending = [])
    (hfree : ∀ row ∈ s.committed, row.id ≠ r1.id)
    (hid : r1.id = r2.id) (ht : t1 < t2) :
    let p1 := store_campgrounds geo1 t1 (fun _ => false) [r1] s
    let p2 := store_campgrounds geo2 t2 (fun _ => false) [r2] p1.2
    ∃ row : CampgroundDB,
      p2.2.committed.filter (fun r => r.id = r2.id) = [row]
      ∧ row = applyRow (convert_to_db_model geo2 t2 r2) t1
      ∧ row.updated_at = t2 ∧ row.created_at = t1
      ∧ (∀ row1 ∈ p1.2.committed, row1.id = r1.id →
          row1.updated_at = t1 ∧ row1.updated_at < row.updated_at) := by
  intro p1 p2
  have h1 : p1 = (.ok 1, ⟨s.committed ++ [applyRow (convert_to_db_model geo1 t1 r1) t1], []⟩) := by
    show store_campgrounds geo1 t1 (fun _ => false) [r1] s = _
    rw [store_campgrounds_noFail geo1 t1 _ (fun _ => rfl) [r1] s hp]
    rw [List.foldl_cons, List.foldl_nil]
    rw [upsertRow_of_not_mem (v := convert_to_db_model geo1 t1 r1) (by
      intro r hr; rw [convert_id]; exact hfree r hr)]
    rfl
  have h2 : p2.2.committed
      = s.committed ++ [applyRow (convert_to_db_model geo2 t2 r2) t1] := by
    show (store_campgrounds geo2 t2 (fun _ => false) [r2] p1.2).2.committed = _
    rw [h1]
    rw [store_campgrounds_noFail geo2 t2 _ (fun _ => rfl) [r2] _ rfl]
    rw [List.foldl_cons, List.foldl_nil]
    show upsertRow (convert_to_db_model geo2 t2 r2)
      (s.committed ++ [applyRow (convert_to_db_model geo1 t1 r1) t1]) = _
    unfold upsertRow
    rw [if_pos (by
      simp only [List.any_append, Bool.or_eq_true, List.any_eq_true,
        decide_eq_true_eq]
      right
      refine ⟨applyRow (convert_to_db_model geo1 t1 r1) t1, by simp, ?_⟩
      rw [applyRow_id, convert_id, convert_id, hid])]
    rw [List.map_append]
    congr 1
    · conv_rhs => rw [← List.map_id s.committed]
      apply List.map_congr_left
      intro r hr
      simp only [id_eq]
      rw [if_neg]
      rw [convert_id, ← hid]
      exact fun he => hfree r hr he
    · simp only [List.map_cons, List.map_nil]
      rw [if_pos (by rw [applyRow_id, convert_id, convert_id, hid])]
      rfl
  refine ⟨applyRow (convert_to_db_model geo2 t2 r2) t1, ?_, rfl, rfl, rfl, ?_⟩
  · rw [h2, List.filter_append]
    rw [List.filter_eq_nil_iff.mpr (by
      intro r hr
      simp only [decide_eq_true_eq]
      rw [← hid]
      exact fun he => hfree r hr he)]
    rw [List.nil_append]
    rw [List.filter_cons_of_pos (by
      simp only [decide_eq_true_eq]
      rw [applyRow_id, convert_id])]
    rfl
  · intro row1 hrow1 hrid
    rw [h1] at hrow1
    simp only [List.mem_append, List.mem_singleton] at hrow1
    rcases hrow1 with hin | heq
    · exact absurd hrid (hfree row1 hin)
    · subst heq
      exact ⟨rfl, ht⟩

/-- C1 witness: a concrete instantiation of the double-upsert theorem,
starting from the empty store with clocks 0 and 1. -/
theorem C1_upsert_full_replace_witness :
    let r1 : Campground :=
      ⟨"c1", "campground", "https://thedyrt.com", "Pine Camp", 1, 2,
        "NY", none, none, [], false, [], none, none, [], 0, none, 0,
        none, none, none, none, none⟩
    let r2 : Campground :=
      ⟨"c1", "campground", "https://thedyrt.com", "Oak Camp", 3, 4,
        "NJ", none, none, [], true, [], none, none, [], 1, none, 2,
        none, none, none, none, none⟩
    let geo : ℚ → ℚ → Except Unit (Option String) := fun _ _ => .ok none
    let p1 := store_campgrounds geo 0 (fun _ => false) [r1] ⟨[], []⟩
    let p2 := store_campgrounds geo 1 (fun _ => false) [r2] p1.2
    ∃ row : CampgroundDB,
      p2.2.committed.filter (fun r => r.id = r2.id) = [row]
      ∧ row = applyRow (convert_to_db_model geo 1 r2) 0
      ∧ row.updated_at = 1 ∧ row.created_at = 0
      ∧ (∀ row1 ∈ p1.2.committed, row1.id = r1.id →
          row1.updated_at = 0 ∧ row1.updated_at < row.updated_at) :=
  C1_upsert_full_replace _ _ 0 1 _ _ ⟨[], []⟩ rfl (by simp) rfl Nat.one_pos

/-! ## Run-loop step lemmas -/

lemma run_loop_cons_skip (env : RunEnv) (cell : GridCell)
    (rest : List GridCell) (st : RunState)
    (h : (env.resume && st.processed.contains cell.cell_id) = true) :
    run_loop env (cell :: rest) st = run_loop env rest st := by
  simp only [run_loop, h]
  simp

lemma run_loop_cons_empty (env : RunEnv) (cell : GridCell)
    (rest : List GridCell) (st : RunState)
    (h1 : (env.resume && st.processed.contains cell.cell_id) = false)
    (h2 : (cellData env cell.cell_id).isEmpty = true) :
    run_loop env (cell :: rest) st
      = run_loop env rest { st with
          processed := insertCell st.processed cell.cell_id,
          file := some ⟨st.total, insertCell st.processed cell.cell_id⟩,
          events := (st.events ++ [RunEvent.fetch cell.cell_id])
            ++ [RunEvent.save ⟨st.total, insertCell st.processed cell.cell_id⟩] } := by
  have h2' : (search_campgrounds_paginated (env.respond cell.cell_id)
      env.max_pages env.per_page).1.isEmpty = true := h2
  simp only [run_loop, h1, h2']
  simp

lemma run_loop_cons_store_err (env : RunEnv) (cell : GridCell)
    (rest : List GridCell) (st : RunState) (e : Unit)
    (h1 : (env.resume && st.processed.contains cell.cell_id) = false)
    (h2 : (cellData env cell.cell_id).isEmpty = false)
    (h3 : (store_campgrounds env.geo (env.clock cell.cell_id)
      (env.failAt cell.cell_id)
      (parse_and_validate_campgrounds (cellData env cell.cell_id))
      st.session).1 = .error e) :
    run_loop env (cell :: rest) st
      = (.error (), { st with
          session := (store_campgrounds env.geo (env.clock cell.cell_id)
            (env.failAt cell.cell_id)
            (parse_and_validate_campgrounds (cellData env cell.cell_id))
            st.session).2,
          events := st.events ++ [RunEvent.fetch cell.cell_id] }) := by
  have h2' : (search_campgrounds_paginated (env.respond cell.cell_id)
      env.max_pages env.per_page).1.isEmpty = false := h2
  have h3' : (store_campgrounds env.geo (env.clock cell.cell_id)
      (env.failAt cell.cell_id)
      (parse_and_validate_campgrounds
        (search_campgrounds_paginated (env.respond cell.cell_id)
          env.max_pages env.per_page).1)
      st.session).1 = .error e := h3
  simp only [run_loop, h1, h2', h3']
  simp
  rfl

lemma run_loop_cons_store_ok (env : RunEnv) (cell : GridCell)
    (rest : List GridCell) (st : RunState) (stored : Nat)
    (h1 : (env.resume && st.processed.contains cell.cell_id) = false)
    (h2 : (cellData env cell.cell_id).isEmpty = false)
    (h3 : (store_campgrounds env.geo (env.clock cell.cell_id)
      (env.failAt cell.cell_id)
      (parse_and_validate_campgrounds (cellData env cell.cell_id))
      st.session).1 = .ok stored) :
    run_loop env (cell :: rest) st
      = run_loop env rest { st with
          total := st.total + stored,
          processed := insertCell st.processed cell.cell_id,
          session := (store_campgrounds env.geo (env.clock cell.cell_id)
            (env.failAt cell.cell_id)
            (parse_and_validate_campgrounds (cellData env cell.cell_id))
            st.session).2,
          file := some ⟨st.total + stored, insertCell st.processed cell.cell_id⟩,
          events := (st.events ++ [RunEvent.fetch cell.cell_id])
            ++ [RunEvent.persist cell.cell_id stored,
                RunEvent.save ⟨st.total + stored, insertCell st.processed cell.cell_id⟩] } := by
  have h2' : (search_campgrounds_paginated (env.respond cell.cell_id)
      env.max_pages env.per_page).1.isEmpty = false := h2
  have h3' : (store_campgrounds env.geo (env.clock cell.cell_id)
      (env.failAt cell.cell_id)
      (parse_and_validate_campgrounds
        (search_campgrounds_paginated (env.respond cell.cell_id)
          env.max_pages env.per_page).1)
      st.session).1 = .ok stored := h3
  simp only [run_loop, h1, h2', h3']
  simp
  rfl

/-- C7: the batch is one transaction.  First half (`store_campgrounds`): if
the database raises at any record of the batch, the call returns the error,
the committed store is exactly as before the call and nothing stays staged
(rollback); with no error the whole batch commits at the end of the record
loop as a single fold over the records.  Second half (`run`): when the
region in progress hits a persistence failure, the run loop propagates the
error and the checkpoint file, the committed store, the running total and
the processed set are all exactly as before that region. -/
theorem C7_batch_atomicity :
    (∀ (geo : ℚ → ℚ → Except Unit (Option String)) (now : Nat)
        (failAt : Nat → Bool) (cs : List Campground) (s : DbSession),
        s.pending = [] →
        ((∃ k < cs.length, failAt k = true) →
          (store_campgrounds geo now failAt cs s).1 = .error ()
          ∧ (store_campgrounds geo now failAt cs s).2.committed = s.committed
          ∧ (store_campgrounds geo now failAt cs s).2.pending = [])
        ∧ ((∀ k, failAt k = false) →
          store_campgrounds geo now failAt cs s
            = (.ok cs.length,
               ⟨cs.foldl (fun db c =>
                  upsertRow (convert_to_db_model geo now c) db) s.committed,
                []⟩)))
    ∧ (∀ (env : RunEnv) (cell : GridCell) (rest : List GridCell)
        (st : RunState),
        (env.resume && st.processed.contains cell.cell_id) = false →
        (cellData env cell.cell_id).isEmpty = false →
        (∃ k < cellStored env cell.cell_id, env.failAt cell.cell_id k = true) →
        (run_loop env (cell :: rest) st).1 = .error ()
        ∧ (run_loop env (cell :: rest) st).2.file = st.file
        ∧ (run_loop env (cell :: rest) st).2.session.committed
            = st.session.committed
        ∧ (run_loop env (cell :: rest) st).2.total = st.total
        ∧ (run_loop env (cell :: rest) st).2.processed = st.processed) := by
  constructor
  · intro geo now failAt cs s hp
    exact ⟨fun h => store_campgrounds_fail geo now failAt cs s h,
      fun hf => store_campgrounds_noFail geo now failAt hf cs s hp⟩
  · intro env cell rest st h1 h2 h3
    have hfail := store_campgrounds_fail env.geo (env.clock cell.cell_id)
      (env.failAt cell.cell_id)
      (parse_and_validate_campgrounds (cellData env cell.cell_id))
      st.session h3
    obtain ⟨herr, hcom, -⟩ := hfail
    rw [run_loop_cons_store_err env cell rest st () h1 h2 herr]
    exact ⟨rfl, rfl, hcom, rfl, rfl⟩

/-- C7 witness: a concrete failing batch (the database raises on every
record) and a concrete failing region inside the run loop. -/
theorem C7_batch_atomicity_witness :
    let geo : ℚ → ℚ → Except Unit (Option String) := fun _ _ => .ok none
    let c1 : Campground :=
      ⟨"c1", "campground", "https://thedyrt.com", "Pine Camp", 1, 2,
        "NY", none, none, [], false, [], none, none, [], 0, none, 0,
        none, none, none, none, none⟩
    let s : DbSession := ⟨[], []⟩
    let env : RunEnv :=
      ⟨fun _ _ => .ok ([[("id", .str "c1"), ("name", .str "Pine Camp")]], 1),
        geo, fun _ => 0, fun _ _ => true, 1, 100, false⟩
    let cell := mkGridCell US_BOUNDS 1 0 0
    let st : RunState := ⟨0, [], ⟨[], []⟩, none, []⟩
    ((store_campgrounds geo 0 (fun _ => true) [c1] s).1 = .error ()
      ∧ (store_campgrounds geo 0 (fun _ => true) [c1] s).2.committed = []
      ∧ (store_campgrounds geo 0 (fun _ => true) [c1] s).2.pending = [])
    ∧ ((run_loop env [cell] st).1 = .error ()
      ∧ (run_loop env [cell] st).2.file = none
      ∧ (run_loop env [cell] st).2.session.committed = []
      ∧ (run_loop env [cell] st).2.total = 0
      ∧ (run_loop env [cell] st).2.processed = []) := by
  intro geo c1 s env cell st
  constructor
  · exact ((C7_batch_atomicity.1 geo 0 (fun _ => true) [c1] s rfl).1
      ⟨0, by decide, rfl⟩)
  · exact C7_batch_atomicity.2 env cell [] st rfl rfl ⟨0, by decide, rfl⟩

/-! ## Geocoding claims (C5, C10) -/

/-- C5 counterexample: latitude `0.0` with a non-null longitude and an
always-failing primary lookup.  Both coordinates are non-null floats, yet
`get_address_with_fallback` returns `None` rather than a placeholder: the
fallback guard `if latitude and longitude:` uses Python truthiness, and
`0.0` is falsy. -/
theorem C5_counterexample :
    get_address_with_fallback (fun _ _ => .ok none) 0 10 = none := by
  unfold get_address_with_fallback get_address
  simp only []
  rw [if_neg]
  push_neg
  intro h
  exact absurd rfl h

/-- C5 (amended): for every coordinate pair where both latitude and
longitude are nonzero (Python-truthy) — not merely non-null — `resolve`
with an always-failing primary lookup returns exactly the non-empty
placeholder embedding both coordinates at 6 decimal places, never `None`;
and a geocoding failure raised by the primary never escapes
`_convert_to_db_model` — the record simply gets a null address. -/
theorem C5_geocoder_fallback
    (lookup : ℚ → ℚ → Except Unit (Option String)) (lat lon : ℚ)
    (hlat : lat ≠ 0) (hlon : lon ≠ 0)
    (hfail : ∀ a b : ℚ, lookup a b = .ok none ∨ lookup a b = .error ()) :
    get_address_with_fallback lookup lat lon
      = some (placeholderAddress lat lon)
    ∧ placeholderAddress lat lon ≠ ""
    ∧ (∀ (geo : ℚ → ℚ → Except Unit (Option String)) (now : Nat)
        (c : Campground),
        truthyOptStr c.address = false →
        (∀ a b : ℚ, geo a b = .error ()) →
        (convert_to_db_model geo now c).address = none) := by
  refine ⟨?_, ?_, ?_⟩
  · unfold get_address_with_fallback get_address
    rcases hfail lat lon with h | h <;> simp only [h] <;>
      exact if_pos ⟨hlat, hlon⟩
  · intro h
    have h2 : (placeholderAddress lat lon).length = 0 := by rw [h]; rfl
    rw [placeholderAddress] at h2
    rw [String.length_append, String.length_append, String.length_append] at h2
    rw [show ("Location at coordinates: ").length = 25 from rfl] at h2
    omega
  · intro geo now c hca hgeo
    show convert_address geo c = none
    unfold convert_address
    rw [hca]
    simp only [Bool.false_eq_true, if_false]
    by_cases hc : c.latitude ≠ 0 ∧ c.longitude ≠ 0
    · rw [if_pos hc]
      unfold get_address
      rw [hgeo]
    · rw [if_neg hc]

/-- C5 witness: the amended fallback theorem at `lat = 1, lon = -3` with a
primary lookup that always reports "no address found". -/
theorem C5_geocoder_fallback_witness :
    ((1 : ℚ) ≠ 0) ∧ ((-3 : ℚ) ≠ 0)
    ∧ (get_address_with_fallback (fun _ _ => .ok none) 1 (-3)
        = some (placeholderAddress 1 (-3))
      ∧ placeholderAddress 1 (-3) ≠ ""
      ∧ (∀ (geo : ℚ → ℚ → Except Unit (Option String)) (now : Nat)
          (c : Campground),
          truthyOptStr c.address = false →
          (∀ a b : ℚ, geo a b = .error ()) →
          (convert_to_db_model geo now c).address = none)) :=
  ⟨one_ne_zero, by norm_num,
    C5_geocoder_fallback (fun _ _ => .ok none) 1 (-3) one_ne_zero
      (by norm_num) (fun _ _ => Or.inl rfl)⟩

/-- C10: the zero-coordinate edge case.  A validated record lacking a
truthy address whose latitude or longitude equals `0.0` is stored with a
null address and the geocoder is never consulted (the conclusion holds for
every geocoding oracle, including ones that would succeed or raise); and
`get_address_with_fallback` under a failing primary returns `None` rather
than a placeholder when either coordinate is `0.0`. -/
theorem C10_zero_coordinates :
    (∀ (geo : ℚ → ℚ → Except Unit (Option String)) (now : Nat)
        (c : Campground),
        truthyOptStr c.address = false →
        (c.latitude = 0 ∨ c.longitude = 0) →
        (convert_to_db_model geo now c).address = none)
    ∧ (∀ (lookup : ℚ → ℚ → Except Unit (Option String)) (lat lon : ℚ),
        (∀ a b : ℚ, lookup a b = .ok none ∨ lookup a b = .error ()) →
        (lat = 0 ∨ lon = 0) →
        get_address_with_fallback lookup lat lon = none) := by
  constructor
  · intro geo now c hca hz
    show convert_address geo c = none
    unfold convert_address
    rw [hca]
    simp only [Bool.false_eq_true, if_false]
    rw [if_neg]
    rcases hz with hz | hz
    · exact fun hc => hc.1 hz
    · exact fun hc => hc.2 hz
  · intro lookup lat lon hfail hz
    unfold get_address_with_fallback get_address
    rcases hfail lat lon with h | h <;> simp only [h] <;>
      · rw [if_neg]
        rcases hz with hz | hz
        · exact fun hc => hc.1 hz
        · exact fun hc => hc.2 hz

/-- C10 witness: a concrete record at latitude `0` (address null), with a
geocoder oracle that would raise if consulted, is stored with a null
address; and the fallback at `(0, 10)` returns `None`. -/
theorem C10_zero_coordinates_witness :
    let c : Campground :=
      ⟨"c2", "campground", "https://thedyrt.com", "Zero Camp", 0, 10,
        "TX", none, none, [], false, [], none, none, [], 0, none, 0,
        none, none, none, none, none⟩
    (convert_to_db_model (fun _ _ => .error ()) 7 c).address = none
    ∧ get_address_with_fallback (fun _ _ => .ok none) 0 10 = none :=
  ⟨C10_zero_coordinates.1 (fun _ _ => .error ()) 7 _ rfl (Or.inl rfl),
    C10_zero_coordinates.2 (fun _ _ => .ok none) 0 10
      (fun _ _ => Or.inl rfl) (Or.inl rfl)⟩

/-! ## Region partitioning (C6) -/

lemma mem_generate_grid_bounds {b : BoundingBox} {n : Nat} {c : GridCell} :
    c ∈ generate_grid_bounds b n
      ↔ ∃ i j, i < n ∧ j < n ∧ c = mkGridCell b n i j := by
  unfold generate_grid_bounds
  simp only [List.mem_flatMap, List.mem_map, List.mem_range]
  constructor
  · rintro ⟨i, hi, j, hj, heq⟩
    exact ⟨i, j, hi, hj, heq.symm⟩
  · rintro ⟨i, j, hi, hj, rfl⟩
    exact ⟨i, hi, j, hj, rfl⟩

lemma south_add_mul_step (b : BoundingBox) (n : Nat) (hn : 1 ≤ n) :
    b.south + (n : ℚ) * ((b.north - b.south) / (n : ℚ)) = b.north := by
  have hne : (n : ℚ) ≠ 0 := Nat.cast_ne_zero.mpr (by omega)
  field_simp

lemma west_add_mul_step (b : BoundingBox) (n : Nat) (hn : 1 ≤ n) :
    b.west + (n : ℚ) * ((b.east - b.west) / (n : ℚ)) = b.east := by
  have hne : (n : ℚ) ≠ 0 := Nat.cast_ne_zero.mpr (by omega)
  field_simp

lemma cover_1d (S h : ℚ) (hh : 0 ≤ h) :
    ∀ k : Nat, 1 ≤ k → ∀ x : ℚ, S ≤ x → x ≤ S + (k : ℚ) * h →
    ∃ i : Nat, i < k ∧ S + (i : ℚ) * h ≤ x ∧ x ≤ S + ((i : ℚ) + 1) * h := by
  intro k
  induction k with
  | zero => intro h1; exact absurd h1 (by omega)
  | succ k ih =>
    intro _ x hx1 hx2
    by_cases hk : 1 ≤ k
    · by_cases hxk : x ≤ S + (k : ℚ) * h
      · obtain ⟨i, hi, hlo, hhi⟩ := ih hk x hx1 hxk
        exact ⟨i, by omega, hlo, hhi⟩
      · push_neg at hxk
        refine ⟨k, by omega, le_of_lt hxk, ?_⟩
        push_cast at hx2
        linarith
    · have hk0 : k = 0 := by omega
      subst hk0
      refine ⟨0, by omega, by simpa using hx1, ?_⟩
      push_cast at hx2
      push_cast
      linarith

lemma disjoint_1d (S h : ℚ) (hh : 0 ≤ h) (i i' : Nat) (hii : i < i')
    (x : ℚ) (h1 : x < S + ((i : ℚ) + 1) * h) (h2 : S + (i' : ℚ) * h < x) :
    False := by
  have hle : ((i : ℚ) + 1) ≤ (i' : ℚ) := by
    have : ((i + 1 : ℕ) : ℚ) ≤ (i' : ℚ) := by exact_mod_cast hii
    push_cast at this
    linarith
  have hmul := mul_le_mul_of_nonneg_right hle hh
  linarith

/-- C6: partitioning.  For every bounding rectangle and every `n ≥ 1` the
partitioner produces exactly `n * n` cells; the cell ids are the
deterministic `"row-col"` list computed from `n` alone (so repeated calls
with the same `n` reproduce them); every produced cell is `mkGridCell b n i j`
for a unique pair of indices and lies inside the input rectangle; every
point of the rectangle lies in some cell (no gaps); and cells at distinct
indices have disjoint open interiors (no overlaps). -/
theorem C6_region_partitioning (b : BoundingBox) (n : Nat)
    (hn : 1 ≤ n) (hns : b.south ≤ b.north) (hwe : b.west ≤ b.east) :
    (generate_grid_bounds b n).length = n * n
    ∧ (generate_grid_bounds b n).map GridCell.cell_id
        = (List.range n).flatMap (fun i => (List.range n).map fun j => s!"{i}-{j}")
    ∧ (∀ c ∈ generate_grid_bounds b n,
        ∃ i j, i < n ∧ j < n ∧ c = mkGridCell b n i j
        ∧ b.south ≤ c.south ∧ c.north ≤ b.north
        ∧ b.west ≤ c.west ∧ c.east ≤ b.east)
    ∧ (∀ lat lon, b.south ≤ lat → lat ≤ b.north → b.west ≤ lon → lon ≤ b.east →
        ∃ c ∈ generate_grid_bounds b n, closedInside c lat lon)
    ∧ (∀ i j i' j', i < n → j < n → i' < n → j' < n → ¬(i = i' ∧ j = j') →
        ∀ lat lon, ¬(openInside (mkGridCell b n i j) lat lon
          ∧ openInside (mkGridCell b n i' j') lat lon)) := by
  have hlat_nonneg : 0 ≤ (b.north - b.south) / (n : ℚ) :=
    div_nonneg (by linarith) (Nat.cast_nonneg n)
  have hlon_nonneg : 0 ≤ (b.east - b.west) / (n : ℚ) :=
    div_nonneg (by linarith) (Nat.cast_nonneg n)
  refine ⟨?_, ?_, ?_, ?_, ?_⟩
  · unfold generate_grid_bounds
    rw [List.length_flatMap]
    simp only [Function.comp_def, List.length_map, List.length_range]
    rw [List.map_const', List.length_range, List.sum_replicate, smul_eq_mul]
  · unfold generate_grid_bounds
    rw [List.map_flatMap]
    have hmap : ∀ i, List.map GridCell.cell_id
        ((List.range n).map fun j => mkGridCell b n i j)
        = (List.range n).map fun j => s!"{i}-{j}" := by
      intro i
      rw [List.map_map]
      rfl
    simp only [hmap]
  · intro c hc
    obtain ⟨i, j, hi, hj, rfl⟩ := mem_generate_grid_bounds.mp hc
    refine ⟨i, j, hi, hj, rfl, ?_, ?_, ?_, ?_⟩
    · show b.south ≤ b.south + (i : ℚ) * ((b.north - b.south) / (n : ℚ))
      have := mul_nonneg (Nat.cast_nonneg (α := ℚ) i) hlat_nonneg
      linarith
    · show b.south + ((i : ℚ) + 1) * ((b.north - b.south) / (n : ℚ)) ≤ b.north
      have hle : ((i : ℚ) + 1) ≤ (n : ℚ) := by
        have : ((i + 1 : ℕ) : ℚ) ≤ (n : ℚ) := by exact_mod_cast hi
        push_cast at this
        linarith
      have hmul := mul_le_mul_of_nonneg_right hle hlat_nonneg
      have heq := south_add_mul_step b n hn
      linarith
    · show b.west ≤ b.west + (j : ℚ) * ((b.east - b.west) / (n : ℚ))
      have := mul_nonneg (Nat.cast_nonneg (α := ℚ) j) hlon_nonneg
      linarith
    · show b.west + ((j : ℚ) + 1) * ((b.east - b.west) / (n : ℚ)) ≤ b.east
      have hle : ((j : ℚ) + 1) ≤ (n : ℚ) := by
        have : ((j + 1 : ℕ) : ℚ) ≤ (n : ℚ) := by exact_mod_cast hj
        push_cast at this
        linarith
      have hmul := mul_le_mul_of_nonneg_right hle hlon_nonneg
      have heq := west_add_mul_step b n hn
      linarith
  · intro lat lon h1 h2 h3 h4
    obtain ⟨i, hi, hia, hib⟩ := cover_1d b.south _ hlat_nonneg n hn lat h1
      (by rw [south_add_mul_step b n hn]; exact h2)
    obtain ⟨j, hj, hja, hjb⟩ := cover_1d b.west _ hlon_nonneg n hn lon h3
      (by rw [west_add_mul_step b n hn]; exact h4)
    refine ⟨mkGridCell b n i j,
      mem_generate_grid_bounds.mpr ⟨i, j, hi, hj, rfl⟩, hia, hib, hja, hjb⟩
  · rintro i j i' j' hi hj hi' hj' hne lat lon ⟨ho, ho'⟩
    obtain ⟨hs, hn1, hw, he⟩ := ho
    obtain ⟨hs', hn1', hw', he'⟩ := ho'
    have hcase : i ≠ i' ∨ j ≠ j' := by tauto
    rcases hcase with hii | hjj
    · rcases Nat.lt_or_ge i i' with hlt | hge
      · exact disjoint_1d b.south _ hlat_nonneg i i' hlt lat hn1 hs'
      · have hlt : i' < i := by omega
        exact disjoint_1d b.south _ hlat_nonneg i' i hlt lat hn1' hs
    · rcases Nat.lt_or_ge j j' with hlt | hge
      · exact disjoint_1d b.west _ hlon_nonneg j j' hlt lon he hw'
      · have hlt : j' < j := by omega
        exact disjoint_1d b.west _ hlon_nonneg j' j hlt lon he' hw

/-- C6 witness: the US bounds `{north:49, south:24, east:-66, west:-125}`
with a 2×2 grid satisfy the partitioning theorem, produce the id list
`0-0, 0-1, 1-0, 1-1`, and every cell spans 12.5° of latitude by 29.5° of
longitude. -/
theorem C6_region_partitioning_witness :
    ((1 : Nat) ≤ 2 ∧ US_BOUNDS.south ≤ US_BOUNDS.north
      ∧ US_BOUNDS.west ≤ US_BOUNDS.east)
    ∧ ((generate_grid_bounds US_BOUNDS 2).length = 2 * 2
      ∧ (generate_grid_bounds US_BOUNDS 2).map GridCell.cell_id
          = (List.range 2).flatMap
              (fun i => (List.range 2).map fun j => s!"{i}-{j}")
      ∧ (∀ c ∈ generate_grid_bounds US_BOUNDS 2,
          ∃ i j, i < 2 ∧ j < 2 ∧ c = mkGridCell US_BOUNDS 2 i j
          ∧ US_BOUNDS.south ≤ c.south ∧ c.north ≤ US_BOUNDS.north
          ∧ US_BOUNDS.west ≤ c.west ∧ c.east ≤ US_BOUNDS.east)
      ∧ (∀ lat lon, US_BOUNDS.south ≤ lat → lat ≤ US_BOUNDS.north →
          US_BOUNDS.west ≤ lon → lon ≤ US_BOUNDS.east →
          ∃ c ∈ generate_grid_bounds US_BOUNDS 2, closedInside c lat lon)
      ∧ (∀ i j i' j', i < 2 → j < 2 → i' < 2 → j' < 2 → ¬(i = i' ∧ j = j') →
          ∀ lat lon, ¬(openInside (mkGridCell US_BOUNDS 2 i j) lat lon
            ∧ openInside (mkGridCell US_BOUNDS 2 i' j') lat lon)))
    ∧ (generate_grid_bounds US_BOUNDS 2).map GridCell.cell_id
        = ["0-0", "0-1", "1-0", "1-1"]
    ∧ (∀ c ∈ generate_grid_bounds US_BOUNDS 2,
        c.north - c.south = 25 / 2 ∧ c.east - c.west = 59 / 2) := by
  refine ⟨⟨by norm_num, by norm_num [US_BOUNDS], by norm_num [US_BOUNDS]⟩,
    C6_region_partitioning US_BOUNDS 2 (by norm_num)
      (by norm_num [US_BOUNDS]) (by norm_num [US_BOUNDS]), rfl, ?_⟩
  intro c hc
  obtain ⟨i, j, hi, hj, rfl⟩ := mem_generate_grid_bounds.mp hc
  interval_cases i <;> interval_cases j <;>
    constructor <;> (show (_ : ℚ) = _; norm_num [mkGridCell, US_BOUNDS])

/-! ## Pagination (C9) -/

lemma search_go_spec (recs : Nat → List Raw) (tot : Nat → Nat)
    (per_page : Nat) :
    ∀ (fuel page : Nat), 1 ≤ fuel →
    ∃ k, page ≤ k ∧ k + 1 ≤ page + fuel
      ∧ (∀ p, page ≤ p → p < k → ¬((recs p).length < per_page ∨ tot p ≤ p))
      ∧ (((recs k).length < per_page ∨ tot k ≤ k) ∨ k + 1 = page + fuel)
      ∧ search_go (fun p => .ok (recs p, tot p)) per_page fuel page
          = (((List.range' page (k - page + 1)).map recs).flatten,
             ((List.range' page (k - page)).flatMap
               fun p => [PageEvent.fetchPage p, PageEvent.sleep])
             ++ [PageEvent.fetchPage k]
             ++ (if (recs k).length < per_page ∨ tot k ≤ k then []
                 else [PageEvent.sleep])) := by
  intro fuel
  induction fuel with
  | zero => intro page h; exact absurd h (by omega)
  | succ f ih =>
    intro page _
    by_cases hstop : (recs page).length < per_page ∨ tot page ≤ page
    · refine ⟨page, le_refl _, by omega, by intro p h1 h2; omega,
        Or.inl hstop, ?_⟩
      simp only [search_go]
      rw [if_pos hstop, if_pos hstop]
      simp
    · by_cases hf : 1 ≤ f
      · obtain ⟨k, hk1, hk2, hk3, hk4, hk5⟩ := ih (page + 1) hf
        refine ⟨k, by omega, by omega, ?_, ?_, ?_⟩
        · intro p hp1 hp2
          rcases Nat.eq_or_lt_of_le hp1 with he | hl
          · exact he ▸ hstop
          · exact hk3 p hl hp2
        · rcases hk4 with h | h
          · exact Or.inl h
          · right; omega
        · simp only [search_go]
          rw [if_neg hstop, hk5]
          have e1 : k - page + 1 = (k - (page + 1) + 1) + 1 := by omega
          have e2 : k - page = (k - (page + 1)) + 1 := by omega
          rw [e1, e2]
          simp [List.range'_succ, List.append_assoc]
      · have hf0 : f = 0 := by omega
        subst hf0
        refine ⟨page, le_refl _, by omega, by intro p h1 h2; omega,
          Or.inr rfl, ?_⟩
        simp only [search_go]
        rw [if_neg hstop, if_neg hstop]
        simp

/-- C9: pagination termination.  With a source whose page `p` carries
`recs p` records and reports `tot p` total pages (and no request failure),
the paginated fetch fetches consecutive pages `1, 2, …, k` and stops at
exactly the first page that is short (fewer than `per_page` records) or
reaches the reported total-page count, capped at `max_pages`; the returned
list is the concatenation of the fetched pages in order; and the event
trace shows the fixed pacing sleep inserted between consecutive page
fetches. -/
theorem C9_pagination_termination (recs : Nat → List Raw) (tot : Nat → Nat)
    (max_pages per_page : Nat) (hmp : 1 ≤ max_pages) :
    ∃ k, 1 ≤ k ∧ k ≤ max_pages
      ∧ (∀ p, 1 ≤ p → p < k → ¬((recs p).length < per_page ∨ tot p ≤ p))
      ∧ (((recs k).length < per_page ∨ tot k ≤ k) ∨ k = max_pages)
      ∧ search_campgrounds_paginated (fun p => .ok (recs p, tot p))
          max_pages per_page
          = (((List.range' 1 k).map recs).flatten,
             ((List.range' 1 (k - 1)).flatMap
               fun p => [PageEvent.fetchPage p, PageEvent.sleep])
             ++ [PageEvent.fetchPage k]
             ++ (if (recs k).length < per_page ∨ tot k ≤ k then []
                 else [PageEvent.sleep])) := by
  obtain ⟨k, hk1, hk2, hk3, hk4, hk5⟩ :=
    search_go_spec recs tot per_page max_pages 1 hmp
  refine ⟨k, hk1, by omega, hk3, ?_, ?_⟩
  · rcases hk4 with h | h
    · exact Or.inl h
    · right; omega
  · unfold search_campgrounds_paginated
    rw [hk5, show k - 1 + 1 = k from by omega]

/-- C9 witness: a source with one full page (page size 1) followed by an
empty page stops at page 2 of a 3-page budget. -/
theorem C9_pagination_termination_witness :
    (1 : Nat) ≤ 3
    ∧ ∃ k, 1 ≤ k ∧ k ≤ 3
      ∧ (∀ p, 1 ≤ p → p < k →
          ¬(((fun q => if q = 1 then
              [[(("id" : String), JVal.str "c1")]] else []) p).length < 1
            ∨ (fun _ : Nat => 5) p ≤ p))
      ∧ ((((fun q => if q = 1 then
              [[(("id" : String), JVal.str "c1")]] else []) k).length < 1
            ∨ (fun _ : Nat => 5) k ≤ k) ∨ k = 3)
      ∧ search_campgrounds_paginated
          (fun p => .ok ((fun q => if q = 1 then
              [[(("id" : String), JVal.str "c1")]] else []) p,
            (fun _ : Nat => 5) p)) 3 1
          = (((List.range' 1 k).map (fun q => if q = 1 then
                [[(("id" : String), JVal.str "c1")]] else [])).flatten,
             ((List.range' 1 (k - 1)).flatMap
               fun p => [PageEvent.fetchPage p, PageEvent.sleep])
             ++ [PageEvent.fetchPage k]
             ++ (if ((fun q => if q = 1 then
                  [[(("id" : String), JVal.str "c1")]] else []) k).length < 1
                  ∨ (fun _ : Nat => 5) k ≤ k then []
                 else [PageEvent.sleep])) :=
  ⟨by decide,
    C9_pagination_termination
      (fun q => if q = 1 then [[(("id" : String), JVal.str "c1")]] else [])
      (fun _ => 5) 3 1 (by decide)⟩

/-! ## Orchestrator refinement (C2, C3, C8) -/

lemma persistTotal_nil : persistTotal [] = 0 := rfl

lemma persistTotal_fetch (c : String) (evs : List RunEvent) :
    persistTotal (RunEvent.fetch c :: evs) = persistTotal evs := rfl

lemma persistTotal_save (st : ScraperStats) (evs : List RunEvent) :
    persistTotal (RunEvent.save st :: evs) = persistTotal evs := rfl

lemma persistTotal_persist (c : String) (n : Nat) (evs : List RunEvent) :
    persistTotal (RunEvent.persist c n :: evs) = n + persistTotal evs := rfl

lemma expected_cons_skip {env : RunEnv} {cell : GridCell}
    {rest : List GridCell} {done : List String} {total : Nat}
    (h : (env.resume && done.contains cell.cell_id) = true) :
    expected_run_events env (cell :: rest) done total
      = expected_run_events env rest done total := by
  simp only [expected_run_events, h]
  simp

lemma expected_cons_empty {env : RunEnv} {cell : GridCell}
    {rest : List GridCell} {done : List String} {total : Nat}
    (h1 : (env.resume && done.contains cell.cell_id) = false)
    (h2 : (cellData env cell.cell_id).isEmpty = true) :
    expected_run_events env (cell :: rest) done total
      = RunEvent.fetch cell.cell_id
        :: RunEvent.save ⟨total, insertCell done cell.cell_id⟩
        :: expected_run_events env rest (insertCell done cell.cell_id) total := by
  simp only [expected_run_events, h1, h2]
  simp

lemma expected_cons_store {env : RunEnv} {cell : GridCell}
    {rest : List GridCell} {done : List String} {total : Nat}
    (h1 : (env.resume && done.contains cell.cell_id) = false)
    (h2 : (cellData env cell.cell_id).isEmpty = false) :
    expected_run_events env (cell :: rest) done total
      = RunEvent.fetch cell.cell_id
        :: RunEvent.persist cell.cell_id (cellStored env cell.cell_id)
        :: RunEvent.save ⟨total + cellStored env cell.cell_id,
             insertCell done cell.cell_id⟩
        :: expected_run_events env rest (insertCell done cell.cell_id)
             (total + cellStored env cell.cell_id) := by
  simp only [expected_run_events, h1, h2]
  simp

lemma processedAfter_cons_skip {env : RunEnv} {cell : GridCell}
    {rest : List GridCell} {done : List String}
    (h : (env.resume && done.contains cell.cell_id) = true) :
    processedAfter env (cell :: rest) done = processedAfter env rest done := by
  simp only [processedAfter, h]
  simp

lemma processedAfter_cons_go {env : RunEnv} {cell : GridCell}
    {rest : List GridCell} {done : List String}
    (h : (env.resume && done.contains cell.cell_id) = false) :
    processedAfter env (cell :: rest) done
      = processedAfter env rest (insertCell done cell.cell_id) := by
  simp only [processedAfter, h]
  simp

lemma allSkipped_cons (env : RunEnv) (cell : GridCell)
    (rest : List GridCell) (done : List String) :
    allSkipped env (cell :: rest) done
      = ((env.resume && done.contains cell.cell_id)
          && allSkipped env rest done) := by
  simp [allSkipped, List.all_cons]

lemma expected_all_skipped {env : RunEnv} :
    ∀ {cells : List GridCell} {done : List String} {total : Nat},
      allSkipped env cells done = true →
      expected_run_events env cells done total = [] := by
  intro cells
  induction cells with
  | nil => intro done total _; rfl
  | cons cell rest ih =>
    intro done total h
    rw [allSkipped_cons] at h
    obtain ⟨h1, h2⟩ := Bool.and_eq_true_iff.mp h
    rw [expected_cons_skip h1]
    exact ih h2

lemma processedAfter_all_skipped {env : RunEnv} :
    ∀ {cells : List GridCell} {done : List String},
      allSkipped env cells done = true →
      processedAfter env cells done = done := by
  intro cells
  induction cells with
  | nil => intro done _; rfl
  | cons cell rest ih =>
    intro done h
    rw [allSkipped_cons] at h
    obtain ⟨h1, h2⟩ := Bool.and_eq_true_iff.mp h
    rw [processedAfter_cons_skip h1]
    exact ih h2

/-- With no persistence failure, the run loop completes and its outcome
refines the spec-side recomputation: the trace is `expected_run_events`,
the total grows by exactly the persisted counts, the completed set is
`processedAfter`, and the stats file on disk is the last checkpoint (or
untouched when every cell was skipped). -/
lemma run_loop_noFail (env : RunEnv) (hf : ∀ c k, env.failAt c k = false) :
    ∀ (cells : List GridCell) (st : RunState), st.session.pending = [] →
      (run_loop env cells st).1 = .ok ()
      ∧ (run_loop env cells st).2.events
          = st.events ++ expected_run_events env cells st.processed st.total
      ∧ (run_loop env cells st).2.total
          = st.total
            + persistTotal (expected_run_events env cells st.processed st.total)
      ∧ (run_loop env cells st).2.processed
          = processedAfter env cells st.processed
      ∧ (run_loop env cells st).2.file
          = (if allSkipped env cells st.processed then st.file
             else some ⟨(run_loop env cells st).2.total,
               (run_loop env cells st).2.processed⟩)
      ∧ (run_loop env cells st).2.session.pending = [] := by
  intro cells
  induction cells with
  | nil =>
    intro st hp
    refine ⟨rfl, ?_, ?_, rfl, ?_, hp⟩
    · show st.events = st.events ++ expected_run_events env [] st.processed st.total
      simp [expected_run_events]
    · show st.total = st.total
        + persistTotal (expected_run_events env [] st.processed st.total)
      simp [expected_run_events, persistTotal_nil]
    · show st.file = if allSkipped env [] st.processed = true then st.file
        else some ⟨(run_loop env [] st).2.total, (run_loop env [] st).2.processed⟩
      simp [allSkipped]
  | cons cell rest ih =>
    intro st hp
    cases hskip : (env.resume && st.processed.contains cell.cell_id) with
    | true =>
      rw [run_loop_cons_skip env cell rest st hskip]
      obtain ⟨i1, i2, i3, i4, i5, i6⟩ := ih st hp
      refine ⟨i1, by rw [expected_cons_skip hskip]; exact i2,
        by rw [expected_cons_skip hskip]; exact i3,
        by rw [processedAfter_cons_skip hskip]; exact i4, ?_, i6⟩
      rw [allSkipped_cons, hskip, Bool.true_and]
      exact i5
    | false =>
      cases hemp : (cellData env cell.cell_id).isEmpty with
      | true =>
        rw [run_loop_cons_empty env cell rest st hskip hemp]
        set st' : RunState := { st with
          processed := insertCell st.processed cell.cell_id,
          file := some ⟨st.total, insertCell st.processed cell.cell_id⟩,
          events := (st.events ++ [RunEvent.fetch cell.cell_id])
            ++ [RunEvent.save ⟨st.total, insertCell st.processed cell.cell_id⟩] } with hst'
        obtain ⟨i1, i2, i3, i4, i5, i6⟩ := ih st' hp
        have hev : st'.events = st.events ++ [RunEvent.fetch cell.cell_id]
            ++ [RunEvent.save ⟨st.total, insertCell st.processed cell.cell_id⟩] := rfl
        refine ⟨i1, ?_, ?_, ?_, ?_, i6⟩
        · rw [i2, expected_cons_empty hskip hemp, hev]
          simp
        · rw [i3, expected_cons_empty hskip hemp, persistTotal_fetch,
            persistTotal_save]
        · rw [i4, processedAfter_cons_go hskip]
        · rw [i5, allSkipped_cons, hskip, Bool.false_and]
          simp only [Bool.false_eq_true, if_false]
          cases hall : allSkipped env rest st'.processed with
          | false => simp only [hall, Bool.false_eq_true, if_false]
          | true =>
            simp only [hall, if_true]
            have hexp : expected_run_events env rest st'.processed st'.total = [] :=
              expected_all_skipped hall
            have hpa : processedAfter env rest st'.processed = st'.processed :=
              processedAfter_all_skipped hall
            rw [i3, i4, hexp, hpa, persistTotal_nil, Nat.add_zero]
      | false =>
        have hstore := store_campgrounds_noFail env.geo (env.clock cell.cell_id)
          (env.failAt cell.cell_id) (hf cell.cell_id)
          (parse_and_validate_campgrounds (cellData env cell.cell_id))
          st.session hp
        have h3 : (store_campgrounds env.geo (env.clock cell.cell_id)
            (env.failAt cell.cell_id)
            (parse_and_validate_campgrounds (cellData env cell.cell_id))
            st.session).1 = .ok (cellStored env cell.cell_id) := by
          rw [hstore]
          rfl
        rw [run_loop_cons_store_ok env cell rest st
          (cellStored env cell.cell_id) hskip hemp h3]
        set st' : RunState := { st with
          total := st.total + cellStored env cell.cell_id,
          processed := insertCell st.processed cell.cell_id,
          session := (store_campgrounds env.geo (env.clock cell.cell_id)
            (env.failAt cell.cell_id)
            (parse_and_validate_campgrounds (cellData env cell.cell_id))
            st.session).2,
          file := some ⟨st.total + cellStored env cell.cell_id,
            insertCell st.processed cell.cell_id⟩,
          events := (st.events ++ [RunEvent.fetch cell.cell_id])
            ++ [RunEvent.persist cell.cell_id (cellStored env cell.cell_id),
                RunEvent.save ⟨st.total + cellStored env cell.cell_id,
                  insertCell st.processed cell.cell_id⟩] } with hst'
        have hp' : st'.session.pending = [] := by
          rw [hst']
          show (store_campgrounds env.geo (env.clock cell.cell_id)
            (env.failAt cell.cell_id)
            (parse_and_validate_campgrounds (cellData env cell.cell_id))
            st.session).2.pending = []
          rw [hstore]
        obtain ⟨i1, i2, i3, i4, i5, i6⟩ := ih st' hp'
        refine ⟨i1, ?_, ?_, ?_, ?_, i6⟩
        · rw [i2, expected_cons_store hskip hemp]
          show _ = st.events ++ _ :: _ :: _ :: expected_run_events env rest
            (insertCell st.processed cell.cell_id)
            (st.total + cellStored env cell.cell_id)
          simp
        · rw [i3, expected_cons_store hskip hemp, persistTotal_fetch,
            persistTotal_persist, persistTotal_save]
          show st.total + cellStored env cell.cell_id
              + persistTotal (expected_run_events env rest
                  (insertCell st.processed cell.cell_id)
                  (st.total + cellStored env cell.cell_id))
            = st.total + (cellStored env cell.cell_id
              + persistTotal (expected_run_events env rest
                  (insertCell st.processed cell.cell_id)
                  (st.total + cellStored env cell.cell_id)))
          omega
        · rw [i4, processedAfter_cons_go hskip]
        · rw [i5, allSkipped_cons, hskip, Bool.false_and]
          simp only [Bool.false_eq_true, if_false]
          cases hall : allSkipped env rest st'.processed with
          | false => simp only [hall, Bool.false_eq_true, if_false]
          | true =>
            simp only [hall, if_true]
            have hexp : expected_run_events env rest st'.processed st'.total = [] :=
              expected_all_skipped hall
            have hpa : processedAfter env rest st'.processed = st'.processed :=
              processedAfter_all_skipped hall
            rw [i3, i4, hexp, hpa, persistTotal_nil, Nat.add_zero]

lemma run_match (env : RunEnv) (b : BoundingBox) (n : Nat)
    (file : Option ScraperStats) (db : List CampgroundDB) :
    run env b n file db
      = (match run_loop env (generate_grid_bounds b n) (runInit env file db) with
         | (.ok _, st) => (.ok st.total, st)
         | (.error _, st) => (.error (), st)) := rfl

lemma run_eq_noFail (env : RunEnv) (hf : ∀ c k, env.failAt c k = false)
    (b : BoundingBox) (n : Nat) (file : Option ScraperStats)
    (db : List CampgroundDB) :
    run env b n file db
      = (.ok (run_loop env (generate_grid_bounds b n)
            (runInit env file db)).2.total,
         (run_loop env (generate_grid_bounds b n) (runInit env file db)).2) := by
  obtain ⟨i1, -, -, -, -, -⟩ := run_loop_noFail env hf
    (generate_grid_bounds b n) (runInit env file db) rfl
  rw [run_match env b n file db]
  rcases hrl : run_loop env (generate_grid_bounds b n) (runInit env file db)
    with ⟨r, stf⟩
  rw [hrl] at i1
  cases r with
  | ok u => rfl
  | error e => exact absurd i1 (by simp)

lemma fetchedCells_fetch (c : String) (evs : List RunEvent) :
    fetchedCells (RunEvent.fetch c :: evs) = c :: fetchedCells evs := rfl

lemma fetchedCells_save (st : ScraperStats) (evs : List RunEvent) :
    fetchedCells (RunEvent.save st :: evs) = fetchedCells evs := rfl

lemma fetchedCells_persist (c : String) (n : Nat) (evs : List RunEvent) :
    fetchedCells (RunEvent.persist c n :: evs) = fetchedCells evs := rfl

lemma mem_fetchedCells {cid : String} {evs : List RunEvent} :
    cid ∈ fetchedCells evs ↔ RunEvent.fetch cid ∈ evs := by
  unfold fetchedCells
  rw [List.mem_filterMap]
  constructor
  · rintro ⟨e, he, hm⟩
    cases e <;> simp_all
  · intro h
    exact ⟨RunEvent.fetch cid, h, rfl⟩

lemma contains_eq_true_iff {l : List String} {a : String} :
    l.contains a = true ↔ a ∈ l := List.elem_iff

lemma contains_eq_false_iff {l : List String} {a : String} :
    l.contains a = false ↔ a ∉ l := by
  constructor
  · intro h hm
    rw [contains_eq_true_iff.mpr hm] at h
    exact absurd h (by simp)
  · intro h
    cases hc : l.contains a with
    | false => rfl
    | true => exact absurd (contains_eq_true_iff.mp hc) h

lemma contains_append_singleton (l : List String) (c x : String) :
    (l ++ [c]).contains x = (l.contains x || decide (x = c)) := by
  induction l with
  | nil => simp [List.contains_cons]
  | cons a as ih => simp [List.contains_cons, ih, Bool.or_assoc]

lemma contains_insertCell (done : List String) (c x : String) :
    (insertCell done c).contains x = (done.contains x || decide (x = c)) := by
  unfold insertCell
  by_cases h : done.contains c
  · rw [if_pos h]
    by_cases hx : x = c
    · subst hx
      simp [h, contains_eq_true_iff.mp h]
    · rw [decide_eq_false hx, Bool.or_false]
  · rw [if_neg h]
    exact contains_append_singleton done c x

lemma mem_insertCell_self (done : List String) (c : String) :
    c ∈ insertCell done c := by
  unfold insertCell
  by_cases h : done.contains c
  · rw [if_pos h]
    exact List.elem_iff.mp h
  · rw [if_neg h]
    simp

lemma mem_insertCell_of_mem {done : List String} {x : String} (c : String)
    (h : x ∈ done) : x ∈ insertCell done c := by
  unfold insertCell
  by_cases hc : done.contains c
  · rw [if_pos hc]; exact h
  · rw [if_neg hc]; exact List.mem_append_left _ h

lemma mem_processedAfter_of_mem (env : RunEnv) :
    ∀ (cells : List GridCell) (done : List String) (x : String),
      x ∈ done → x ∈ processedAfter env cells done := by
  intro cells
  induction cells with
  | nil => intro done x h; exact h
  | cons cell rest ih =>
    intro done x h
    cases hskip : (env.resume && done.contains cell.cell_id) with
    | true =>
      rw [processedAfter_cons_skip hskip]
      exact ih done x h
    | false =>
      rw [processedAfter_cons_go hskip]
      exact ih _ x (mem_insertCell_of_mem _ h)

lemma mem_processedAfter (env : RunEnv) :
    ∀ (cells : List GridCell) (done : List String) (c : GridCell),
      c ∈ cells →
      (cells.map GridCell.cell_id).Nodup →
      done.contains c.cell_id = false →
      c.cell_id ∈ processedAfter env cells done := by
  intro cells
  induction cells with
  | nil => intro done c hc; exact absurd hc (by simp)
  | cons cell rest ih =>
    intro done c hc hnd hcon
    have hnd' : (rest.map GridCell.cell_id).Nodup :=
      (List.nodup_cons.mp (by simpa using hnd)).2
    have hnotin : cell.cell_id ∉ rest.map GridCell.cell_id :=
      (List.nodup_cons.mp (by simpa using hnd)).1
    rcases List.mem_cons.mp hc with rfl | hcr
    · have hskip : (env.resume && done.contains c.cell_id) = false := by
        rw [hcon, Bool.and_false]
      rw [processedAfter_cons_go hskip]
      exact mem_processedAfter_of_mem env rest _ _ (mem_insertCell_self done c.cell_id)
    · have hne : c.cell_id ≠ cell.cell_id := by
        intro he
        exact hnotin (he ▸ List.mem_map_of_mem GridCell.cell_id hcr)
      cases hskip : (env.resume && done.contains cell.cell_id) with
      | true =>
        rw [processedAfter_cons_skip hskip]
        exact ih done c hcr hnd' hcon
      | false =>
        rw [processedAfter_cons_go hskip]
        apply ih _ c hcr hnd'
        rw [contains_insertCell, hcon, Bool.false_or]
        exact decide_eq_false hne

lemma allSkipped_false_of_mem {env : RunEnv} {cells : List GridCell}
    {done : List String} {c : GridCell} (hc : c ∈ cells)
    (hcon : done.contains c.cell_id = false) :
    allSkipped env cells done = false := by
  cases h : allSkipped env cells done with
  | false => rfl
  | true =>
    exfalso
    have := List.all_eq_true.mp h c hc
    rw [hcon, Bool.and_false] at this
    exact absurd this (by simp)

lemma fetchedCells_expected (env : RunEnv) (hres : env.resume = true) :
    ∀ (cells : List GridCell) (done : List String) (total : Nat),
      (cells.map GridCell.cell_id).Nodup →
      fetchedCells (expected_run_events env cells done total)
        = (cells.filter (fun c => !done.contains c.cell_id)).map
            GridCell.cell_id := by
  intro cells
  induction cells with
  | nil => intro done total _; rfl
  | cons cell rest ih =>
    intro done total hnd
    have hnd' : (rest.map GridCell.cell_id).Nodup :=
      (List.nodup_cons.mp (by simpa using hnd)).2
    have hnotin : cell.cell_id ∉ rest.map GridCell.cell_id :=
      (List.nodup_cons.mp (by simpa using hnd)).1
    have hfilter : ∀ done' : List String,
        (∀ x ∈ rest, done'.contains x.cell_id = done.contains x.cell_id) →
        (rest.filter (fun c => !done'.contains c.cell_id))
          = rest.filter (fun c => !done.contains c.cell_id) := by
      intro done' hagree
      apply List.filter_congr
      intro x hx
      rw [hagree x hx]
    cases hcon : done.contains cell.cell_id with
    | true =>
      have hskip : (env.resume && done.contains cell.cell_id) = true := by
        simp [hres, contains_eq_true_iff.mp hcon]
      rw [expected_cons_skip hskip,
        List.filter_cons_of_neg (by rw [hcon]; simp)]
      exact ih done total hnd'
    | false =>
      have hskip : (env.resume && done.contains cell.cell_id) = false := by
        simp [hres, contains_eq_false_iff.mp hcon]
      rw [List.filter_cons_of_pos (by rw [hcon]; rfl), List.map_cons]
      have hagree : ∀ x ∈ rest,
          (insertCell done cell.cell_id).contains x.cell_id
            = done.contains x.cell_id := by
        intro x hx
        rw [contains_insertCell]
        have hne : x.cell_id ≠ cell.cell_id := by
          intro he
          exact hnotin (he ▸ List.mem_map_of_mem GridCell.cell_id hx)
        rw [decide_eq_false hne, Bool.or_false]
      cases hemp : (cellData env cell.cell_id).isEmpty with
      | true =>
        rw [expected_cons_empty hskip hemp, fetchedCells_fetch,
          fetchedCells_save, ih _ total hnd', hfilter _ hagree]
      | false =>
        rw [expected_cons_store hskip hemp, fetchedCells_fetch,
          fetchedCells_persist, fetchedCells_save, ih _ _ hnd',
          hfilter _ hagree]

lemma persist_imp_fetch (env : RunEnv) :
    ∀ (cells : List GridCell) (done : List String) (total : Nat)
      (cid : String) (n' : Nat),
      RunEvent.persist cid n' ∈ expected_run_events env cells done total →
      RunEvent.fetch cid ∈ expected_run_events env cells done total := by
  intro cells
  induction cells with
  | nil => intro done total cid n' h; exact absurd h (by simp [expected_run_events])
  | cons cell rest ih =>
    intro done total cid n' h
    cases hskip : (env.resume && done.contains cell.cell_id) with
    | true =>
      rw [expected_cons_skip hskip] at h ⊢
      exact ih done total cid n' h
    | false =>
      cases hemp : (cellData env cell.cell_id).isEmpty with
      | true =>
        rw [expected_cons_empty hskip hemp] at h ⊢
        simp only [List.mem_cons] at h
        rcases h with h | h | h
        · exact absurd h (by simp)
        · exact absurd h (by simp)
        · exact List.mem_cons_of_mem _ (List.mem_cons_of_mem _ (ih _ _ cid n' h))
      | false =>
        rw [expected_cons_store hskip hemp] at h ⊢
        simp only [List.mem_cons] at h
        rcases h with h | h | h | h
        · exact absurd h (by simp)
        · have : cid = cell.cell_id := by
            cases h
            rfl
          subst this
          exact List.mem_cons_self _ _
        · exact absurd h (by simp)
        · exact List.mem_cons_of_mem _ (List.mem_cons_of_mem _
            (List.mem_cons_of_mem _ (ih _ _ cid n' h)))

lemma save_exists (env : RunEnv) (hres : env.resume = true) :
    ∀ (cells : List GridCell) (done : List String) (total : Nat)
      (c : GridCell),
      c ∈ cells →
      (cells.map GridCell.cell_id).Nodup →
      done.contains c.cell_id = false →
      ∃ s, RunEvent.save s ∈ expected_run_events env cells done total
        ∧ c.cell_id ∈ s.processed_cells := by
  intro cells
  induction cells with
  | nil => intro done total c hc; exact absurd hc (by simp)
  | cons cell rest ih =>
    intro done total c hc hnd hcon
    have hnd' : (rest.map GridCell.cell_id).Nodup :=
      (List.nodup_cons.mp (by simpa using hnd)).2
    have hnotin : cell.cell_id ∉ rest.map GridCell.cell_id :=
      (List.nodup_cons.mp (by simpa using hnd)).1
    rcases List.mem_cons.mp hc with rfl | hcr
    · have hskip : (env.resume && done.contains c.cell_id) = false := by
        rw [hcon, Bool.and_false]
      cases hemp : (cellData env c.cell_id).isEmpty with
      | true =>
        refine ⟨⟨total, insertCell done c.cell_id⟩, ?_, mem_insertCell_self done c.cell_id⟩
        rw [expected_cons_empty hskip hemp]
        exact List.mem_cons_of_mem _ (List.mem_cons_self _ _)
      | false =>
        refine ⟨⟨total + cellStored env c.cell_id, insertCell done c.cell_id⟩,
          ?_, mem_insertCell_self done c.cell_id⟩
        rw [expected_cons_store hskip hemp]
        exact List.mem_cons_of_mem _ (List.mem_cons_of_mem _ (List.mem_cons_self _ _))
    · have hne : c.cell_id ≠ cell.cell_id := by
        intro he
        exact hnotin (he ▸ List.mem_map_of_mem GridCell.cell_id hcr)
      cases hskip : (env.resume && done.contains cell.cell_id) with
      | true =>
        rw [expected_cons_skip hskip]
        exact ih done total c hcr hnd' hcon
      | false =>
        have hcon' : (insertCell done cell.cell_id).contains c.cell_id = false := by
          rw [contains_insertCell, hcon, Bool.false_or]
          exact decide_eq_false hne
        cases hemp : (cellData env cell.cell_id).isEmpty with
        | true =>
          rw [expected_cons_empty hskip hemp]
          obtain ⟨s, hs1, hs2⟩ := ih _ total c hcr hnd' hcon'
          exact ⟨s, List.mem_cons_of_mem _ (List.mem_cons_of_mem _ hs1), hs2⟩
        | false =>
          rw [expected_cons_store hskip hemp]
          obtain ⟨s, hs1, hs2⟩ := ih _ _ c hcr hnd' hcon'
          exact ⟨s, List.mem_cons_of_mem _ (List.mem_cons_of_mem _
            (List.mem_cons_of_mem _ hs1)), hs2⟩

/-- C8: resumability.  With resume enabled, no persistence failure, and the
partitioner's (duplicate-free) grid: the run succeeds and returns its
accumulated total; its trace is exactly the spec-side recomputation over
the regions not in the loaded checkpoint — so each non-completed region is
fetched (and persisted when nonempty) and then immediately checkpointed
with that region added; the fetched regions are exactly the grid minus the
completed set, in the partitioner's order (the remaining M−N regions); a
completed region is never re-fetched nor re-persisted; and every
non-completed region ends up in a written checkpoint. -/
theorem C8_resumability (env : RunEnv) (b : BoundingBox) (n : Nat)
    (file : Option ScraperStats) (db : List CampgroundDB)
    (hres : env.resume = true) (hf : ∀ c k, env.failAt c k = false)
    (hnd : ((generate_grid_bounds b n).map GridCell.cell_id).Nodup) :
    (run env b n file db).1 = .ok ((run env b n file db).2.total)
    ∧ (run env b n file db).2.events
        = expected_run_events env (generate_grid_bounds b n)
            (load_stats file).processed_cells
            (load_stats file).total_campgrounds
    ∧ fetchedCells ((run env b n file db).2.events)
        = ((generate_grid_bounds b n).filter
            (fun c => !(load_stats file).processed_cells.contains c.cell_id)).map
            GridCell.cell_id
    ∧ (∀ c ∈ generate_grid_bounds b n,
        (load_stats file).processed_cells.contains c.cell_id = true →
        RunEvent.fetch c.cell_id ∉ (run env b n file db).2.events
        ∧ ∀ n', RunEvent.persist c.cell_id n' ∉ (run env b n file db).2.events)
    ∧ (∀ c ∈ generate_grid_bounds b n,
        (load_stats file).processed_cells.contains c.cell_id = false →
        ∃ s, RunEvent.save s ∈ (run env b n file db).2.events
          ∧ c.cell_id ∈ s.processed_cells) := by
  have hrun := run_eq_noFail env hf b n file db
  have hinit : runInit env file db
      = ⟨(load_stats file).total_campgrounds, (load_stats file).processed_cells,
         ⟨db, []⟩, file, []⟩ := by
    unfold runInit
    rw [hres]
    rfl
  obtain ⟨l1, l2, l3, l4, l5, l6⟩ := run_loop_noFail env hf
    (generate_grid_bounds b n) (runInit env file db) rfl
  have hev : (run env b n file db).2.events
      = expected_run_events env (generate_grid_bounds b n)
          (load_stats file).processed_cells
          (load_stats file).total_campgrounds := by
    rw [hrun]
    show (run_loop env (generate_grid_bounds b n) (runInit env file db)).2.events = _
    rw [l2, hinit]
    rfl
  have hfetched : fetchedCells ((run env b n file db).2.events)
      = ((generate_grid_bounds b n).filter
          (fun c => !(load_stats file).processed_cells.contains c.cell_id)).map
          GridCell.cell_id := by
    rw [hev]
    exact fetchedCells_expected env hres (generate_grid_bounds b n)
      (load_stats file).processed_cells (load_stats file).total_campgrounds hnd
  refine ⟨by rw [hrun], hev, hfetched, ?_, ?_⟩
  · intro c hc hcon
    have hnotfetch : RunEvent.fetch c.cell_id ∉ (run env b n file db).2.events := by
      intro hmem
      have hmem2 : c.cell_id ∈ fetchedCells ((run env b n file db).2.events) :=
        mem_fetchedCells.mpr hmem
      rw [hfetched] at hmem2
      obtain ⟨c', hc'mem, hideq⟩ := List.mem_map.mp hmem2
      obtain ⟨hc'grid, hc'pred⟩ := List.mem_filter.mp hc'mem
      have hceq : c' = c := List.inj_on_of_nodup_map hnd hc'grid hc hideq
      subst hceq
      rw [hcon] at hc'pred
      exact absurd hc'pred (by simp)
    refine ⟨hnotfetch, ?_⟩
    intro n' hmem
    apply hnotfetch
    rw [hev] at hmem ⊢
    exact persist_imp_fetch env (generate_grid_bounds b n)
      (load_stats file).processed_cells (load_stats file).total_campgrounds
      c.cell_id n' hmem
  · intro c hc hcon
    obtain ⟨s, hs1, hs2⟩ := save_exists env hres (generate_grid_bounds b n)
      (load_stats file).processed_cells (load_stats file).total_campgrounds
      c hc hnd hcon
    rw [← hev] at hs1
    exact ⟨s, hs1, hs2⟩

/-- C8 witness: a 2×2 US grid with regions `0-0` and `1-1` already
completed in the checkpoint, an all-empty remote source and no persistence
failure. -/
theorem C8_resumability_witness :
    let env : RunEnv := ⟨fun _ _ => .ok ([], 1), fun _ _ => .ok none,
      fun _ => 0, fun _ _ => false, 10, 100, true⟩
    let file : Option ScraperStats := some ⟨3, ["0-0", "1-1"]⟩
    (env.resume = true ∧ (∀ c k, env.failAt c k = false)
      ∧ ((generate_grid_bounds US_BOUNDS 2).map GridCell.cell_id).Nodup)
    ∧ ((run env US_BOUNDS 2 file []).1 = .ok ((run env US_BOUNDS 2 file []).2.total)
      ∧ (run env US_BOUNDS 2 file []).2.events
          = expected_run_events env (generate_grid_bounds US_BOUNDS 2)
              (load_stats file).processed_cells
              (load_stats file).total_campgrounds
      ∧ fetchedCells ((run env US_BOUNDS 2 file []).2.events)
          = ((generate_grid_bounds US_BOUNDS 2).filter
              (fun c => !(load_stats file).processed_cells.contains c.cell_id)).map
              GridCell.cell_id
      ∧ (∀ c ∈ generate_grid_bounds US_BOUNDS 2,
          (load_stats file).processed_cells.contains c.cell_id = true →
          RunEvent.fetch c.cell_id ∉ (run env US_BOUNDS 2 file []).2.events
          ∧ ∀ n', RunEvent.persist c.cell_id n'
              ∉ (run env US_BOUNDS 2 file []).2.events)
      ∧ (∀ c ∈ generate_grid_bounds US_BOUNDS 2,
          (load_stats file).processed_cells.contains c.cell_id = false →
          ∃ s, RunEvent.save s ∈ (run env US_BOUNDS 2 file []).2.events
            ∧ c.cell_id ∈ s.processed_cells)) := by
  intro env file
  refine ⟨⟨rfl, fun _ _ => rfl, ?_⟩, ?_⟩
  · show (["0-0", "0-1", "1-0", "1-1"] : List String).Nodup
    decide
  · exact C8_resumability env US_BOUNDS 2 file [] rfl (fun _ _ => rfl)
      (by show (["0-0", "0-1", "1-0", "1-1"] : List String).Nodup; decide)

/-- C2 counterexample: a 1×1 grid whose single region's fetch fails (after
retries) on every page.  Contrary to the claim, the failed region IS added
to the completed set of the checkpoint: the paginated fetch swallows the
error and returns no records, and the orchestrator files the region as
processed. -/
theorem C2_counterexample :
    let env : RunEnv := ⟨fun _ _ => .error (), fun _ _ => .ok none,
      fun _ => 0, fun _ _ => false, 10, 100, true⟩
    (run env US_BOUNDS 1 none []).1 = .ok 0
    ∧ (run env US_BOUNDS 1 none []).2.file = some ⟨0, ["0-0"]⟩
    ∧ (run env US_BOUNDS 1 none []).2.processed = ["0-0"] := by
  exact ⟨rfl, rfl, rfl⟩

/-- C2 (amended): per-region fetch failure tolerance as the code actually
implements it.  When a region's page fetches fail after retries, the
failure is caught and logged inside `search_campgrounds_paginated` (not by
the orchestrator), which returns the records collected so far; the run is
never aborted by a fetch failure, every non-completed region — including
the failing one — is still fetched in the partitioner's order, and the
failed region IS marked completed in the written checkpoint (so a resumed
run will NOT retry it). -/
theorem C2_fetch_failure_tolerance (env : RunEnv) (b : BoundingBox) (n : Nat)
    (file : Option ScraperStats) (db : List CampgroundDB) (c : GridCell)
    (hres : env.resume = true)
    (hf : ∀ cid k, env.failAt cid k = false)
    (hnd : ((generate_grid_bounds b n).map GridCell.cell_id).Nodup)
    (hc : c ∈ generate_grid_bounds b n)
    (hcon : (load_stats file).processed_cells.contains c.cell_id = false)
    (hfetch : ∀ p, env.respond c.cell_id p = .error ()) :
    (run env b n file db).1 = .ok ((run env b n file db).2.total)
    ∧ fetchedCells ((run env b n file db).2.events)
        = ((generate_grid_bounds b n).filter
            (fun x => !(load_stats file).processed_cells.contains x.cell_id)).map
            GridCell.cell_id
    ∧ c.cell_id ∈ fetchedCells ((run env b n file db).2.events)
    ∧ ∃ s, (run env b n file db).2.file = some s
        ∧ c.cell_id ∈ s.processed_cells := by
  have hrun := run_eq_noFail env hf b n file db
  have hinit : runInit env file db
      = ⟨(load_stats file).total_campgrounds, (load_stats file).processed_cells,
         ⟨db, []⟩, file, []⟩ := by
    unfold runInit
    rw [hres]
    rfl
  obtain ⟨l1, l2, l3, l4, l5, l6⟩ := run_loop_noFail env hf
    (generate_grid_bounds b n) (runInit env file db) rfl
  have hev : (run env b n file db).2.events
      = expected_run_events env (generate_grid_bounds b n)
          (load_stats file).processed_cells
          (load_stats file).total_campgrounds := by
    rw [hrun]
    show (run_loop env (generate_grid_bounds b n) (runInit env file db)).2.events = _
    rw [l2, hinit]
    rfl
  have hfetched : fetchedCells ((run env b n file db).2.events)
      = ((generate_grid_bounds b n).filter
          (fun x => !(load_stats file).processed_cells.contains x.cell_id)).map
          GridCell.cell_id := by
    rw [hev]
    exact fetchedCells_expected env hres (generate_grid_bounds b n)
      (load_stats file).processed_cells (load_stats file).total_campgrounds hnd
  refine ⟨by rw [hrun], hfetched, ?_, ?_⟩
  · rw [hfetched]
    exact List.mem_map_of_mem GridCell.cell_id
      (List.mem_filter.mpr ⟨hc, by rw [hcon]; rfl⟩)
  · have hallsk : allSkipped env (generate_grid_bounds b n)
        (runInit env file db).processed = false := by
      rw [hinit]
      exact allSkipped_false_of_mem hc hcon
    have hfile : (run env b n file db).2.file
        = some ⟨(run_loop env (generate_grid_bounds b n)
              (runInit env file db)).2.total,
            (run_loop env (generate_grid_bounds b n)
              (runInit env file db)).2.processed⟩ := by
      rw [hrun]
      show (run_loop env (generate_grid_bounds b n) (runInit env file db)).2.file = _
      rw [l5, hallsk]
      rfl
    refine ⟨_, hfile, ?_⟩
    rw [l4]
    apply mem_processedAfter env (generate_grid_bounds b n) _ c hc hnd
    rw [hinit]
    exact hcon

/-- C2 witness: a 2×2 US grid with an empty prior checkpoint where region
`0-1`'s fetch raises on every page while the others return no records. -/
theorem C2_fetch_failure_tolerance_witness :
    let env : RunEnv := ⟨fun cid _ => if cid = "0-1" then .error ()
        else .ok ([], 1),
      fun _ _ => .ok none, fun _ => 0, fun _ _ => false, 10, 100, true⟩
    let c := mkGridCell US_BOUNDS 2 0 1
    (env.resume = true ∧ (∀ cid k, env.failAt cid k = false)
      ∧ ((generate_grid_bounds US_BOUNDS 2).map GridCell.cell_id).Nodup
      ∧ c ∈ generate_grid_bounds US_BOUNDS 2
      ∧ (load_stats none).processed_cells.contains c.cell_id = false
      ∧ (∀ p, env.respond c.cell_id p = .error ()))
    ∧ ((run env US_BOUNDS 2 none []).1
          = .ok ((run env US_BOUNDS 2 none []).2.total)
      ∧ fetchedCells ((run env US_BOUNDS 2 none []).2.events)
          = ((generate_grid_bounds US_BOUNDS 2).filter
              (fun x => !(load_stats none).processed_cells.contains x.cell_id)).map
              GridCell.cell_id
      ∧ c.cell_id ∈ fetchedCells ((run env US_BOUNDS 2 none []).2.events)
      ∧ ∃ s, (run env US_BOUNDS 2 none []).2.file = some s
          ∧ c.cell_id ∈ s.processed_cells) := by
  intro env c
  have hc : c ∈ generate_grid_bounds US_BOUNDS 2 :=
    mem_generate_grid_bounds.mpr ⟨0, 1, by omega, by omega, rfl⟩
  have hnd : ((generate_grid_bounds US_BOUNDS 2).map GridCell.cell_id).Nodup := by
    show (["0-0", "0-1", "1-0", "1-1"] : List String).Nodup
    decide
  refine ⟨⟨rfl, fun _ _ => rfl, hnd, hc, rfl, fun p => rfl⟩, ?_⟩
  exact C2_fetch_failure_tolerance env US_BOUNDS 2 none [] c rfl
    (fun _ _ => rfl) hnd hc rfl (fun p => rfl)

/-- C3 counterexample: a resumed run whose single region is already
completed stores nothing in this invocation (no persist events), yet
returns 5 — the lifetime total carried in the checkpoint — contradicting
"returns the number of records stored during this invocation only". -/
theorem C3_counterexample :
    let env : RunEnv := ⟨fun _ _ => .ok ([], 1), fun _ _ => .ok none,
      fun _ => 0, fun _ _ => false, 10, 100, true⟩
    (run env US_BOUNDS 1 (some ⟨5, ["0-0"]⟩) []).1 = .ok 5
    ∧ persistTotal ((run env US_BOUNDS 1 (some ⟨5, ["0-0"]⟩) []).2.events) = 0
    ∧ (5 : Nat) ≠ 0 := by
  exact ⟨rfl, rfl, by decide⟩

/-- C3 (amended): the run's return value is the checkpoint's lifetime total
plus the records stored during this invocation (the sum of the trace's
persist counts); only on a fresh run (resume disabled — likewise with no
prior checkpoint) does it equal this invocation's own count. -/
theorem C3_run_return_value (env : RunEnv) (b : BoundingBox) (n : Nat)
    (file : Option ScraperStats) (db : List CampgroundDB)
    (hf : ∀ c k, env.failAt c k = false) :
    (run env b n file db).1
      = .ok ((if env.resume then load_stats file
          else (⟨0, []⟩ : ScraperStats)).total_campgrounds
        + persistTotal ((run env b n file db).2.events))
    ∧ (env.resume = false →
        (run env b n file db).1
          = .ok (persistTotal ((run env b n file db).2.events))) := by
  have hrun := run_eq_noFail env hf b n file db
  obtain ⟨l1, l2, l3, l4, l5, l6⟩ := run_loop_noFail env hf
    (generate_grid_bounds b n) (runInit env file db) rfl
  have hev : persistTotal ((run env b n file db).2.events)
      = persistTotal (expected_run_events env (generate_grid_bounds b n)
          (runInit env file db).processed (runInit env file db).total) := by
    rw [hrun]
    show persistTotal
      (run_loop env (generate_grid_bounds b n) (runInit env file db)).2.events = _
    rw [l2]
    show persistTotal ([] ++ _) = _
    rw [List.nil_append]
  have hmain : (run env b n file db).1
      = .ok ((runInit env file db).total
          + persistTotal ((run env b n file db).2.events)) := by
    rw [hev, hrun]
    show Except.ok (run_loop env (generate_grid_bounds b n)
      (runInit env file db)).2.total = _
    rw [l3]
  constructor
  · exact hmain
  · intro hres
    rw [hmain]
    have : (runInit env file db).total = 0 := by
      unfold runInit
      rw [hres]
      rfl
    rw [this, Nat.zero_add]

/-- C3 witness: the amended return-value theorem at a concrete fresh run
(resume disabled, empty source). -/
theorem C3_run_return_value_witness :
    let env : RunEnv := ⟨fun _ _ => .ok ([], 1), fun _ _ => .ok none,
      fun _ => 0, fun _ _ => false, 10, 100, false⟩
    (∀ c k, env.failAt c k = false)
    ∧ ((run env US_BOUNDS 1 none []).1
        = .ok ((if env.resume then load_stats none
            else (⟨0, []⟩ : ScraperStats)).total_campgrounds
          + persistTotal ((run env US_BOUNDS 1 none []).2.events))
      ∧ (env.resume = false →
          (run env US_BOUNDS 1 none []).1
            = .ok (persistTotal ((run env US_BOUNDS 1 none []).2.events)))) :=
  ⟨fun _ _ => rfl, C3_run_return_value _ US_BOUNDS 1 none [] (fun _ _ => rfl)⟩

end Scraper
